import Mathlib

set_option linter.unusedVariables false

/-!
Shallow embedding of the Inventory-Manager transaction posting engine:
`TransactionService` in `src/inventory/transactions/services.py` together
with the data model of `src/inventory/models.py`.

Quantities and ids are modelled as integers, monetary amounts as rationals,
timestamps as integers (`received_at`).  The ORM session is modelled as an
explicit `DB` record threaded through the operations; `db.session.begin()`
with rollback-on-exception becomes: the posting body runs in `Except` over a
working copy of the state, and `create_transaction` returns the original
state whenever the body fails.
-/

/-- `Product` row (models.py).  `quantity` is the legacy cached total-quantity
mirror ("това е legacy поле вече истината е Stock"); `default_purchase_price`
is a nullable float column, hence `Option Rat`. -/
structure Product where
  id : Int
  name : String
  quantity : Int
  default_purchase_price : Option Rat
  default_sell_price : Option Rat
  deriving Repr, DecidableEq

/-- `Stock` row: the on-hand quantity of one product in one warehouse. -/
structure Stock where
  id : Int
  product_id : Int
  warehouse_id : Int
  quantity : Int
  deriving Repr, DecidableEq

/-- `PurchaseLot` row: a FIFO cost lot. -/
structure PurchaseLot where
  id : Int
  product_id : Int
  warehouse_id : Int
  quantity_remaining : Int
  unit_cost : Rat
  received_at : Int
  transaction_item_id : Option Int
  deriving Repr, DecidableEq

/-- `Transaction` header row. -/
structure Transaction where
  id : Int
  ttype : String
  partner_id : Int
  warehouse_id : Int
  user_id : Int
  note : Option String
  locked : Bool
  deriving Repr, DecidableEq

/-- `TransactionItem` row: one line of a transaction. -/
structure TransactionItem where
  id : Int
  transaction_id : Int
  product_id : Int
  quantity : Int
  unit_price : Rat
  total_price : Rat
  cost_used : Option Rat
  profit : Option Rat
  deriving Repr, DecidableEq

/-- `StockMovement` row: append-only IN/OUT ledger entry. -/
structure StockMovement where
  owner_id : Int
  transaction_id : Int
  transaction_item_id : Int
  product_id : Int
  warehouse_id : Int
  direction : String
  quantity : Int
  unit_cost : Option Rat
  unit_price : Option Rat
  note : String
  deriving Repr, DecidableEq

/-- `LotAllocation` row: which lot funded which sale line, and at what cost. -/
structure LotAllocation where
  transaction_item_id : Int
  purchase_lot_id : Int
  quantity : Int
  unit_cost : Rat
  deriving Repr, DecidableEq

/-- The persistent state: all tables plus autoincrement counters and a clock
for `datetime.utcnow()` used as `received_at`. -/
structure DB where
  products : List Product
  stocks : List Stock
  lots : List PurchaseLot
  transactions : List Transaction
  items : List TransactionItem
  allocations : List LotAllocation
  movements : List StockMovement
  next_stock_id : Int
  next_txn_id : Int
  next_item_id : Int
  next_lot_id : Int
  now : Int
  deriving Repr, DecidableEq

/-- One raw line-item dict as handed to the service.  `none` models a value
on which `int(...)` / `float(...)` raises (missing `product_id` included,
since `int(None)` raises); a dict without a `quantity` / `unit_price` key
behaves as `some 0` because the code uses `row.get(key, 0)`. -/
structure ItemRow where
  product_id : Option Int
  quantity : Option Int
  unit_price : Option Rat
  deriving Repr, DecidableEq

/-- Structured form of the error strings `_precheck_sale_stock` returns. -/
inductive PrecheckError where
  /-- "Invalid product or quantity." -/
  | invalidRow : PrecheckError
  /-- "Quantity must be greater than 0." -/
  | nonPositiveQty : PrecheckError
  /-- "No items provided." -/
  | noItems : PrecheckError
  /-- "Not enough stock for sale:" followed by one line per shortage,
  each carrying (product label, available, requested). -/
  | notEnough (shortages : List (String × Int × Int)) : PrecheckError
  deriving Repr, DecidableEq

/-- Structured form of the error results of `create_transaction`. -/
inductive TxnError where
  /-- "Invalid transaction type." -/
  | invalidType : TxnError
  /-- A pre-check error returned before the atomic unit is opened. -/
  | precheckFailed (e : PrecheckError) : TxnError
  /-- TransactionError "Product not found." -/
  | productNotFound : TxnError
  /-- TransactionError "Quantity must be greater than 0." -/
  | nonPositiveQty : TxnError
  /-- TransactionError "Not enough stock for NAME in this warehouse
  (available N)." -/
  | notEnoughStock (name : String) (available : Int) : TxnError
  /-- The generic catch-all "Failed to create transaction. Please try
  again." raised e.g. by `int(...)` / `float(...)` on malformed rows. -/
  | internalError : TxnError
  deriving Repr, DecidableEq

/-- The success payload of `create_transaction`. -/
structure CreateOk where
  txn : Transaction
  items : List TransactionItem
  deriving Repr, DecidableEq

/-- First `Stock` row for a (product, warehouse) pair, as
`Stock.query.filter_by(product_id=..., warehouse_id=...).first()`. -/
def findStock (db : DB) (pid wid : Int) : Option Stock :=
  db.stocks.find? (fun s => decide (s.product_id = pid) && decide (s.warehouse_id = wid))

/-- `Product.query.get(pid)`. -/
def findProduct (db : DB) (pid : Int) : Option Product :=
  db.products.find? (fun p => decide (p.id = pid))

/-- `_get_or_create_stock`: return the existing row or create one with
quantity 0 (flushed, so it is visible to later queries in the same unit). -/
def get_or_create_stock (db : DB) (pid wid : Int) : Stock × DB :=
  match findStock db pid wid with
  | some s => (s, db)
  | none =>
      let s : Stock := ⟨db.next_stock_id, pid, wid, 0⟩
      (s, { db with stocks := db.stocks ++ [s], next_stock_id := db.next_stock_id + 1 })

/-- In-place mutation `stock.quantity = int(stock.quantity or 0) + d` on the
row with the given id (ORM object identity). -/
def bumpStock (db : DB) (sid : Int) (d : Int) : DB :=
  { db with stocks := db.stocks.map (fun s =>
      if s.id = sid then { s with quantity := s.quantity + d } else s) }

/-- Insertion step of a stable sort of lots by the given Boolean order. -/
def insertLotBy (le : PurchaseLot → PurchaseLot → Bool) (a : PurchaseLot) :
    List PurchaseLot → List PurchaseLot
  | [] => [a]
  | b :: l => if le a b then a :: b :: l else b :: insertLotBy le a l

/-- Stable insertion sort of lots, modelling the SQL `ORDER BY`. -/
def sortLotsBy (le : PurchaseLot → PurchaseLot → Bool) :
    List PurchaseLot → List PurchaseLot
  | [] => []
  | a :: l => insertLotBy le a (sortLotsBy le l)

/-- `ORDER BY received_at ASC, id ASC` as a Boolean total order. -/
def fifoOrder (a b : PurchaseLot) : Bool :=
  decide (a.received_at < b.received_at) ||
    (decide (a.received_at = b.received_at) && decide (a.id ≤ b.id))

/-- `ORDER BY received_at DESC, id DESC` as a Boolean total order. -/
def lifoOrder (a b : PurchaseLot) : Bool :=
  decide (b.received_at < a.received_at) ||
    (decide (a.received_at = b.received_at) && decide (b.id ≤ a.id))

/-- The query of `_fifo_consume_with_allocations`: all lots of the
(product, warehouse) pair with `quantity_remaining > 0`, oldest first,
ties broken by ascending id. -/
def fifoLots (db : DB) (pid wid : Int) : List PurchaseLot :=
  sortLotsBy fifoOrder (db.lots.filter (fun l =>
    decide (l.product_id = pid) && decide (l.warehouse_id = wid) &&
      decide (0 < l.quantity_remaining)))

/-- The fallback query: the most recently received lot of the pair
(regardless of remaining quantity), latest `received_at` first, highest id
first. -/
def last_lot (db : DB) (pid wid : Int) : Option PurchaseLot :=
  (sortLotsBy lifoOrder (db.lots.filter (fun l =>
    decide (l.product_id = pid) && decide (l.warehouse_id = wid)))).head?

/-- The consumption loop of `_fifo_consume_with_allocations`: walk the
already-loaded lot list; for each lot take
`min(qty_to_consume, lot.quantity_remaining)`, decrement the lot in place,
accumulate `take * unit_cost`, and record one `LotAllocation`.  Returns
(qty still to consume, cost accumulated, state). -/
def fifoLoop (item_id : Int) (db : DB) (lots : List PurchaseLot)
    (qty_to_consume : Int) (cost_used : Rat) : Int × Rat × DB :=
  match lots with
  | [] => (qty_to_consume, cost_used, db)
  | lot :: rest =>
      if qty_to_consume ≤ 0 then (qty_to_consume, cost_used, db)
      else
        let take := min qty_to_consume lot.quantity_remaining
        let lot' := { lot with quantity_remaining := lot.quantity_remaining - take }
        let db' : DB := { db with
          lots := db.lots.map (fun l => if l.id = lot.id then lot' else l),
          allocations := db.allocations ++
            [⟨item_id, lot.id, take, lot.unit_cost⟩] }
        fifoLoop item_id db' rest (qty_to_consume - take)
          (cost_used + take * lot.unit_cost)

/-- `_fifo_consume_with_allocations`: FIFO consumption plus the shortfall
fallback pricing (last lot's unit cost when `allow_negative`, otherwise the
product's `default_purchase_price`, both defaulting to 0). -/
def fifo_consume_with_allocations (db : DB) (transaction_item_id pid wid : Int)
    (qty : Int) (allow_negative : Bool) : Rat × DB :=
  let r := fifoLoop transaction_item_id db (fifoLots db pid wid) qty 0
  let rem := r.1
  let cost := r.2.1
  let db1 := r.2.2
  if 0 < rem then
    let fallback_cost : Rat :=
      if allow_negative then
        match last_lot db1 pid wid with
        | some l => l.unit_cost
        | none => 0
      else
        match findProduct db1 pid with
        | some p => p.default_purchase_price.getD 0
        | none => 0
    (cost + rem * fallback_cost, db1)
  else
    (cost, db1)

/-- Add `qty` to the running total of `pid` in the insertion-ordered
aggregation list (`requested[pid] += qty` over a `defaultdict(int)`). -/
def addRequested (l : List (Int × Int)) (pid qty : Int) : List (Int × Int) :=
  match l with
  | [] => [(pid, qty)]
  | (p, q) :: rest =>
      if p = pid then (p, q + qty) :: rest else (p, q) :: addRequested rest pid qty

/-- The parsing/aggregation loop of `_precheck_sale_stock`: parse each row,
reject malformed rows and non-positive quantities, and aggregate requested
quantity per product in first-insertion order. -/
def aggregateRequested : List ItemRow → List (Int × Int) →
    Except PrecheckError (List (Int × Int))
  | [], acc => .ok acc
  | row :: rest, acc =>
      match row.product_id, row.quantity with
      | some pid, some qty =>
          if qty ≤ 0 then .error .nonPositiveQty
          else aggregateRequested rest (addRequested acc pid qty)
      | _, _ => .error .invalidRow

/-- The label used in the shortage report: `p.name or f"#{p.id}"`, with
`#pid` when the product does not exist. -/
def productLabel (db : DB) (pid : Int) : String :=
  match findProduct db pid with
  | some p => if p.name = "" then "#" ++ toString pid else p.name
  | none => "#" ++ toString pid

/-- `int(s.quantity or 0)` for the pair's stock row, 0 when there is none. -/
def stockQty (db : DB) (pid wid : Int) : Int :=
  match findStock db pid wid with
  | some s => s.quantity
  | none => 0

/-- `_precheck_sale_stock`: validate and aggregate the rows, then report
every product whose aggregate requested quantity exceeds the warehouse's
on-hand stock.  Read-only. -/
def precheck_sale_stock (db : DB) (items : List ItemRow) (wid : Int) :
    Option PrecheckError :=
  match aggregateRequested items [] with
  | .error e => some e
  | .ok requested =>
      if requested = [] then some .noItems
      else
        let shortages := requested.filterMap (fun pq =>
          let avail := stockQty db pq.1 wid
          if avail < pq.2 then some (productLabel db pq.1, avail, pq.2) else none)
        if shortages = [] then none else some (.notEnough shortages)

/-- `_create_header`: insert the locked transaction header and flush. -/
def create_header (db : DB) (ttype : String) (partner_id warehouse_id user_id : Int)
    (note : Option String) : Transaction × DB :=
  let txn : Transaction :=
    ⟨db.next_txn_id, ttype, partner_id, warehouse_id, user_id, note, true⟩
  (txn, { db with transactions := db.transactions ++ [txn],
                  next_txn_id := db.next_txn_id + 1 })

/-- `_purchase_item`: validate, insert the line, grow the pair's stock,
open a fresh lot with `quantity_remaining = qty`, and append an IN
movement. -/
def purchase_item (db : DB) (txn : Transaction) (owner_id pid : Int)
    (qty : Int) (unit_cost : Rat) : Except TxnError (TransactionItem × DB) :=
  match findProduct db pid with
  | none => .error .productNotFound
  | some _ =>
      if qty ≤ 0 then .error .nonPositiveQty
      else
        let total_price := qty * unit_cost
        let item : TransactionItem :=
          ⟨db.next_item_id, txn.id, pid, qty, unit_cost, total_price, none, none⟩
        let db1 : DB := { db with items := db.items ++ [item],
                                  next_item_id := db.next_item_id + 1 }
        let sdb := get_or_create_stock db1 pid txn.warehouse_id
        let db2 := bumpStock sdb.2 sdb.1.id qty
        let db3 : DB := { db2 with
          lots := db2.lots ++
            [⟨db2.next_lot_id, pid, txn.warehouse_id, qty, unit_cost, db2.now, some item.id⟩],
          next_lot_id := db2.next_lot_id + 1,
          now := db2.now + 1,
          movements := db2.movements ++
            [⟨owner_id, txn.id, item.id, pid, txn.warehouse_id, "IN", qty,
              some unit_cost, none, "Purchase"⟩] }
        .ok (item, db3)

/-- `_sale_item`: validate, second-layer stock check (skipped when
`allow_negative`), insert the line, consume FIFO lots, shrink the pair's
stock, fill in `cost_used`/`profit`, and append an OUT movement with the
average unit cost. -/
def sale_item (db : DB) (txn : Transaction) (owner_id pid : Int)
    (qty : Int) (sell_price : Rat) (allow_negative : Bool) :
    Except TxnError (TransactionItem × DB) :=
  match findProduct db pid with
  | none => .error .productNotFound
  | some product =>
      if qty ≤ 0 then .error .nonPositiveQty
      else
        let total_price := qty * sell_price
        let sdb := get_or_create_stock db pid txn.warehouse_id
        let stock := sdb.1
        let db1 := sdb.2
        if !allow_negative && decide (stock.quantity < qty) then
          .error (.notEnoughStock product.name stock.quantity)
        else
          let item : TransactionItem :=
            ⟨db1.next_item_id, txn.id, pid, qty, sell_price, total_price, none, none⟩
          let db2 : DB := { db1 with items := db1.items ++ [item],
                                     next_item_id := db1.next_item_id + 1 }
          let fr := fifo_consume_with_allocations db2 item.id pid txn.warehouse_id
            qty allow_negative
          let cost_used := fr.1
          let db3 := bumpStock fr.2 stock.id (-qty)
          let item' : TransactionItem :=
            { item with cost_used := some cost_used,
                        profit := some (total_price - cost_used) }
          let db4 : DB := { db3 with
            items := db3.items.map (fun i => if i.id = item.id then item' else i),
            movements := db3.movements ++
              [⟨owner_id, txn.id, item.id, pid, txn.warehouse_id, "OUT", qty,
                some (cost_used / qty), some sell_price, "Sale"⟩] }
          .ok (item', db4)

/-- The per-row body of `create_transaction`'s loop: parse the row (an
`int(...)`/`float(...)` failure raises a plain exception, i.e. the generic
internal error), reject non-positive quantities, and dispatch on the
transaction type. -/
def post_items (txn : Transaction) (owner_id : Int) (ttype : String)
    (allow_negative : Bool) :
    DB → List ItemRow → Except TxnError (List TransactionItem × DB)
  | db, [] => .ok ([], db)
  | db, row :: rest =>
      match row.product_id, row.quantity, row.unit_price with
      | some pid, some qty, some unit_price =>
          if qty ≤ 0 then .error .nonPositiveQty
          else
            let r :=
              if ttype = "Purchase" then purchase_item db txn owner_id pid qty unit_price
              else sale_item db txn owner_id pid qty unit_price allow_negative
            match r with
            | .error e => .error e
            | .ok (item, db') =>
                match post_items txn owner_id ttype allow_negative db' rest with
                | .error e => .error e
                | .ok (its, db'') => .ok (item :: its, db'')
      | _, _, _ => .error .internalError

/-- The atomic unit of `create_transaction` (`with db.session.begin():`):
create the header, post every row; on any error the whole unit rolls back
to the state the unit started from. -/
def post_transaction (db : DB) (ttype : String)
    (partner_id warehouse_id user_id : Int) (items : List ItemRow)
    (owner_id : Int) (note : Option String) (allow_negative : Bool) :
    DB × Except TxnError CreateOk :=
  let hd := create_header db ttype partner_id warehouse_id user_id note
  match post_items hd.1 owner_id ttype allow_negative hd.2 items with
  | .error e => (db, .error e)
  | .ok (its, db') => (db', .ok ⟨hd.1, its⟩)

/-- `TransactionService.create_transaction`: the public entry point.
Returns the resulting state together with the success payload or the
error; on error the returned state equals the input state (rollback). -/
def create_transaction (db : DB) (ttype : String)
    (partner_id warehouse_id user_id : Int) (items : List ItemRow)
    (owner_id : Int) (note : Option String) (allow_negative : Bool) :
    DB × Except TxnError CreateOk :=
  if ttype = "Purchase" ∨ ttype = "Sale" then
    if ttype = "Sale" ∧ allow_negative = false then
      match precheck_sale_stock db items warehouse_id with
      | some e => (db, .error (.precheckFailed e))
      | none =>
          post_transaction db ttype partner_id warehouse_id user_id items
            owner_id note allow_negative
    else
      post_transaction db ttype partner_id warehouse_id user_id items
        owner_id note allow_negative
  else
    (db, .error .invalidType)

/-! ## Observers, scenario states and a sequencing driver -/

/-- Whether a `create_transaction` call succeeded. -/
def resultOk (r : DB × Except TxnError CreateOk) : Bool :=
  match r.2 with
  | .ok _ => true
  | .error _ => false

/-- The lines a successful `create_transaction` call posted. -/
def postedItems (r : DB × Except TxnError CreateOk) : List TransactionItem :=
  match r.2 with
  | .ok o => o.items
  | .error _ => []

/-- Whether a line-posting helper succeeded. -/
def isOkItem (r : Except TxnError (TransactionItem × DB)) : Bool :=
  match r with
  | .ok _ => true
  | .error _ => false

/-- The state a line-posting helper produced (the input state on error,
matching rollback). -/
def okState (db : DB) (r : Except TxnError (TransactionItem × DB)) : DB :=
  match r with
  | .ok p => p.2
  | .error _ => db

/-- The item a line-posting helper returned, when it succeeded. -/
def okItem? (r : Except TxnError (TransactionItem × DB)) : Option TransactionItem :=
  match r with
  | .ok p => some p.1
  | .error _ => none

/-- The legacy cached quantity mirror of a product. -/
def productQty (db : DB) (pid : Int) : Option Int :=
  (findProduct db pid).map Product.quantity

/-- The remaining quantity of the lot with the given id. -/
def lotRemaining (db : DB) (lid : Int) : Option Int :=
  (db.lots.find? (fun l => decide (l.id = lid))).map PurchaseLot.quantity_remaining

/-- Every lot's `quantity_remaining` is non-negative. -/
def lotsNonneg (db : DB) : Prop :=
  ∀ l ∈ db.lots, 0 ≤ l.quantity_remaining

/-- Sum of `quantity_remaining` over all lots of a (product, warehouse)
pair. -/
def lotRemSum (db : DB) (pid wid : Int) : Int :=
  ((db.lots.filter (fun l =>
    decide (l.product_id = pid) && decide (l.warehouse_id = wid))).map
      PurchaseLot.quantity_remaining).sum

/-- Sum of `quantity_remaining` over the pair's lots that still have a
positive remainder (exactly the lots FIFO consumption may touch). -/
def posRemaining (db : DB) (pid wid : Int) : Int :=
  ((db.lots.filter (fun l =>
    decide (l.product_id = pid) && decide (l.warehouse_id = wid) &&
      decide (0 < l.quantity_remaining))).map PurchaseLot.quantity_remaining).sum

/-- Total quantity of a product requested across all line items of a call
(`0` contributed by rows whose quantity fails to parse). -/
def requestedSum (items : List ItemRow) (pid : Int) : Int :=
  (items.map (fun r => if r.product_id = some pid then r.quantity.getD 0 else 0)).sum

/-- Aggregated quantity recorded for `pid` in an aggregation list. -/
def lookupReq (l : List (Int × Int)) (pid : Int) : Int :=
  match l.find? (fun pq => decide (pq.1 = pid)) with
  | some pq => pq.2
  | none => 0

/-- A row on which the pre-check finds nothing wrong: both fields parse and
the quantity is positive. -/
def rowOkB (r : ItemRow) : Bool :=
  match r.product_id, r.quantity with
  | some _, some q => decide (0 < q)
  | _, _ => false

/-- One call to the public entry point, for posting sequences. -/
structure PostRequest where
  ttype : String
  partner_id : Int
  warehouse_id : Int
  user_id : Int
  items : List ItemRow
  owner_id : Int
  note : Option String
  allow_negative : Bool
  deriving Repr, DecidableEq

/-- Perform one posting call, keeping the resulting state. -/
def applyRequest (db : DB) (r : PostRequest) : DB :=
  (create_transaction db r.ttype r.partner_id r.warehouse_id r.user_id
    r.items r.owner_id r.note r.allow_negative).1

/-- Perform a sequence of posting calls. -/
def runPostings (db : DB) (reqs : List PostRequest) : DB :=
  reqs.foldl applyRequest db

/-- An empty organisation: no rows at all. -/
def emptyDB : DB :=
  ⟨[], [], [], [], [], [], [], 1, 1, 1, 1, 0⟩

/-- One product (id 1), one warehouse-1 stock row of `r` units backed by a
single lot of `r` units at unit cost `c`. -/
def oneLotDB (r : Int) (c : Rat) : DB :=
  { products := [⟨1, "Widget", 0, some 7, some 9⟩],
    stocks := [⟨1, 1, 1, r⟩],
    lots := [⟨1, 1, 1, r, c, 0, none⟩],
    transactions := [], items := [], allocations := [], movements := [],
    next_stock_id := 2, next_txn_id := 1, next_item_id := 1, next_lot_id := 2,
    now := 100 }

/-- One product (id 1, `default_purchase_price = d`), a warehouse-1 stock
row of `r1 + r2` units backed by lot 1 (`r1` units at cost `c1`, received at
`t1`) and lot 2 (`r2` units at cost `c2`, received at `t2`). -/
def twoLotDB (d : Option Rat) (t1 t2 r1 r2 : Int) (c1 c2 : Rat) : DB :=
  { products := [⟨1, "Widget", 0, d, some 9⟩],
    stocks := [⟨1, 1, 1, r1 + r2⟩],
    lots := [⟨1, 1, 1, r1, c1, t1, none⟩, ⟨2, 1, 1, r2, c2, t2, none⟩],
    transactions := [], items := [], allocations := [], movements := [],
    next_stock_id := 2, next_txn_id := 1, next_item_id := 1, next_lot_id := 3,
    now := 100 }

/-- One product (id 1, `default_purchase_price = d`) with no stock rows and
no lots at all. -/
def noLotDB (d : Option Rat) : DB :=
  { products := [⟨1, "Widget", 0, d, some 9⟩],
    stocks := [], lots := [],
    transactions := [], items := [], allocations := [], movements := [],
    next_stock_id := 1, next_txn_id := 1, next_item_id := 1, next_lot_id := 1,
    now := 100 }

/-! ## Rollback on error -/

deriving instance DecidableEq for Except

/-- Inside the atomic unit, any failure returns the caller's state
untouched. -/
theorem post_transaction_rollback {db : DB} {ttype : String}
    {pa wh u o : Int} {items : List ItemRow} {n : Option String} {an : Bool}
    {e : TxnError}
    (h : (post_transaction db ttype pa wh u items o n an).2 = Except.error e) :
    (post_transaction db ttype pa wh u items o n an).1 = db := by
  unfold post_transaction at h ⊢
  cases hp : post_items (create_header db ttype pa wh u n).1 o ttype an
      (create_header db ttype pa wh u n).2 items with
  | error e' => simp only [hp]
  | ok p =>
      simp only [hp] at h
      exact Except.noConfusion h

/-- Shared rollback fact: an erroring `create_transaction` call leaves the
state exactly as it was. -/
theorem create_transaction_rollback {db : DB} {ttype : String}
    {pa wh u o : Int} {items : List ItemRow} {n : Option String} {an : Bool}
    {e : TxnError}
    (h : (create_transaction db ttype pa wh u items o n an).2 = Except.error e) :
    (create_transaction db ttype pa wh u items o n an).1 = db := by
  unfold create_transaction at h ⊢
  by_cases h1 : ttype = "Purchase" ∨ ttype = "Sale"
  · rw [if_pos h1] at h ⊢
    by_cases h2 : ttype = "Sale" ∧ an = false
    · rw [if_pos h2] at h ⊢
      cases hp : precheck_sale_stock db items wh with
      | some e' => rfl
      | none =>
          rw [hp] at h
          exact post_transaction_rollback h
    · rw [if_neg h2] at h ⊢
      exact post_transaction_rollback h
  · rw [if_neg h1]

/-! ## Frame lemmas -/

/-- `_get_or_create_stock` touches nothing but the stocks table. -/
theorem get_or_create_stock_frame (db : DB) (pid wid : Int) :
    (get_or_create_stock db pid wid).2.products = db.products ∧
    (get_or_create_stock db pid wid).2.lots = db.lots ∧
    (get_or_create_stock db pid wid).2.items = db.items ∧
    (get_or_create_stock db pid wid).2.transactions = db.transactions ∧
    (get_or_create_stock db pid wid).2.movements = db.movements ∧
    (get_or_create_stock db pid wid).2.allocations = db.allocations ∧
    (get_or_create_stock db pid wid).2.next_lot_id = db.next_lot_id ∧
    (get_or_create_stock db pid wid).2.now = db.now := by
  unfold get_or_create_stock
  cases findStock db pid wid <;>
    exact ⟨rfl, rfl, rfl, rfl, rfl, rfl, rfl, rfl⟩

/-- The FIFO consumption loop touches nothing but the lots and allocations
tables. -/
theorem fifoLoop_frame (iid : Int) (lots : List PurchaseLot) :
    ∀ (db : DB) (q : Int) (c : Rat),
      (fifoLoop iid db lots q c).2.2.products = db.products ∧
      (fifoLoop iid db lots q c).2.2.stocks = db.stocks ∧
      (fifoLoop iid db lots q c).2.2.items = db.items ∧
      (fifoLoop iid db lots q c).2.2.transactions = db.transactions ∧
      (fifoLoop iid db lots q c).2.2.movements = db.movements := by
  induction lots with
  | nil => exact fun db q c => ⟨rfl, rfl, rfl, rfl, rfl⟩
  | cons lot rest ih =>
      intro db q c
      unfold fifoLoop
      by_cases hq : q ≤ 0
      · rw [if_pos hq]
        exact ⟨rfl, rfl, rfl, rfl, rfl⟩
      · rw [if_neg hq]
        exact ih _ _ _

/-- The state `_fifo_consume_with_allocations` returns is the state the
consumption loop produced (the fallback only affects the cost). -/
theorem fifo_consume_snd (db : DB) (iid pid wid q : Int) (an : Bool) :
    (fifo_consume_with_allocations db iid pid wid q an).2 =
      (fifoLoop iid db (fifoLots db pid wid) q 0).2.2 := by
  simp only [fifo_consume_with_allocations]
  split <;> rfl

/-- `_fifo_consume_with_allocations` touches nothing but the lots and
allocations tables. -/
theorem fifo_consume_frame (db : DB) (iid pid wid q : Int) (an : Bool) :
    (fifo_consume_with_allocations db iid pid wid q an).2.products = db.products ∧
    (fifo_consume_with_allocations db iid pid wid q an).2.stocks = db.stocks ∧
    (fifo_consume_with_allocations db iid pid wid q an).2.items = db.items ∧
    (fifo_consume_with_allocations db iid pid wid q an).2.transactions = db.transactions ∧
    (fifo_consume_with_allocations db iid pid wid q an).2.movements = db.movements := by
  rw [fifo_consume_snd]
  exact fifoLoop_frame iid (fifoLots db pid wid) db q 0

/-! ## Stock accessor lemmas -/

/-- The row-filter of `findStock` is unaffected by a quantity bump. -/
theorem findStock_bump (db : DB) (sid d pid wid : Int) :
    findStock (bumpStock db sid d) pid wid =
      Option.map (fun s => if s.id = sid then { s with quantity := s.quantity + d } else s)
        (findStock db pid wid) := by
  unfold findStock bumpStock
  rw [List.find?_map]
  have hpf : ((fun s => decide (s.product_id = pid) && decide (s.warehouse_id = wid)) ∘
      fun s => if s.id = sid then { s with quantity := s.quantity + d } else s) =
      (fun s : Stock => decide (s.product_id = pid) && decide (s.warehouse_id = wid)) := by
    funext s
    by_cases h : s.id = sid <;> simp [Function.comp, h]
  rw [hpf]

/-- `findStock` only looks at the stocks table. -/
theorem findStock_congr {db db' : DB} (h : db'.stocks = db.stocks) (pid wid : Int) :
    findStock db' pid wid = findStock db pid wid := by
  unfold findStock
  rw [h]

/-- Bumping the pair's existing row by `d` adds `d` to the pair's stock
quantity, whatever other tables the intermediate state carries. -/
theorem stockQty_bump_found {db : DB} {pid wid : Int} {s : Stock}
    (hs : findStock db pid wid = some s) (db2 : DB)
    (hstocks : db2.stocks = db.stocks) (d : Int) :
    stockQty (bumpStock db2 s.id d) pid wid = stockQty db pid wid + d := by
  unfold stockQty
  rw [findStock_bump]
  rw [findStock_congr hstocks, hs]
  simp

/-- When the pair had no row, bumping a freshly created row (quantity 0,
any id) by `d` makes the pair's stock quantity exactly `d`. -/
theorem stockQty_bump_created {db : DB} {pid wid : Int}
    (hs : findStock db pid wid = none) (i d : Int) (db2 : DB)
    (hstocks : db2.stocks = db.stocks ++ [⟨i, pid, wid, 0⟩]) :
    stockQty (bumpStock db2 i d) pid wid = stockQty db pid wid + d := by
  unfold stockQty
  rw [findStock_bump]
  unfold findStock at hs ⊢
  rw [hstocks, List.find?_append, hs]
  simp

/-- `stockQty` only looks at the stocks table. -/
theorem stockQty_congr {db db' : DB} (h : db'.stocks = db.stocks) (pid wid : Int) :
    stockQty db' pid wid = stockQty db pid wid := by
  unfold stockQty
  rw [findStock_congr h]

/-- Case analysis on `_get_or_create_stock`: either the pair's row existed
and the state is untouched, or a zero-quantity row is appended. -/
theorem get_or_create_cases (db : DB) (pid wid : Int) :
    (findStock db pid wid = some (get_or_create_stock db pid wid).1 ∧
      (get_or_create_stock db pid wid).2 = db) ∨
    (findStock db pid wid = none ∧
      (get_or_create_stock db pid wid).1 = ⟨db.next_stock_id, pid, wid, 0⟩ ∧
      (get_or_create_stock db pid wid).2 =
        { db with stocks := db.stocks ++ [⟨db.next_stock_id, pid, wid, 0⟩],
                  next_stock_id := db.next_stock_id + 1 }) := by
  unfold get_or_create_stock
  cases hfs : findStock db pid wid with
  | some s => exact Or.inl ⟨rfl, rfl⟩
  | none => exact Or.inr ⟨rfl, rfl, rfl⟩

/-- Inversion of a successful `_purchase_item` call: the posted line, the
new lot (with `quantity_remaining` equal to the line quantity), the exact
stock increase, and the untouched tables. -/
theorem purchase_item_ok {db : DB} {txn : Transaction} {o pid qty : Int}
    {uc : Rat} {item : TransactionItem} {db' : DB}
    (h : purchase_item db txn o pid qty uc = .ok (item, db')) :
    0 < qty ∧
    item = ⟨db.next_item_id, txn.id, pid, qty, uc, (qty : Rat) * uc, none, none⟩ ∧
    db'.products = db.products ∧
    db'.transactions = db.transactions ∧
    db'.allocations = db.allocations ∧
    db'.items = db.items ++ [item] ∧
    db'.lots = db.lots ++
      [⟨db.next_lot_id, pid, txn.warehouse_id, qty, uc, db.now, some item.id⟩] ∧
    stockQty db' pid txn.warehouse_id = stockQty db pid txn.warehouse_id + qty := by
  unfold purchase_item at h
  cases hfp : findProduct db pid with
  | none =>
      rw [hfp] at h
      exact Except.noConfusion h
  | some p =>
      rw [hfp] at h
      by_cases hq : qty ≤ 0
      · rw [if_pos hq] at h
        exact Except.noConfusion h
      · rw [if_neg hq] at h
        injection h with hpair
        rw [Prod.ext_iff] at hpair
        obtain ⟨hi, hd⟩ := hpair
        subst hi
        subst hd
        refine ⟨by omega, rfl, ?_⟩
        rcases get_or_create_cases
            ({ db with
                items := db.items ++
                  [⟨db.next_item_id, txn.id, pid, qty, uc, (qty : Rat) * uc, none, none⟩],
                next_item_id := db.next_item_id + 1 }) pid txn.warehouse_id with
          ⟨hfs, hdb⟩ | ⟨hfs, hs1, hdb⟩
        · rw [hdb]
          exact ⟨rfl, rfl, rfl, rfl, rfl, stockQty_bump_found hfs _ rfl qty⟩
        · rw [hdb, hs1]
          exact ⟨rfl, rfl, rfl, rfl, rfl, stockQty_bump_created hfs _ qty _ rfl⟩

/-! ## FIFO loop lemmas -/

/-- The consumption loop never drives any lot's remainder negative: a
touched lot is decremented by `min`, never below zero, and untouched lots
keep their value. -/
theorem fifoLoop_nonneg (iid : Int) (lots : List PurchaseLot) :
    ∀ (db : DB) (q : Int) (c : Rat), lotsNonneg db →
      lotsNonneg (fifoLoop iid db lots q c).2.2 := by
  induction lots with
  | nil => exact fun db q c h => h
  | cons lot rest ih =>
      intro db q c h
      unfold fifoLoop
      by_cases hq : q ≤ 0
      · rw [if_pos hq]
        exact h
      · rw [if_neg hq]
        apply ih
        intro l' hl'
        obtain ⟨x, hx, hfx⟩ := List.mem_map.mp hl'
        by_cases hid : x.id = lot.id
        · rw [if_pos hid] at hfx
          subst hfx
          show (0:Int) ≤ lot.quantity_remaining - min q lot.quantity_remaining
          omega
        · rw [if_neg hid] at hfx
          subst hfx
          exact h x hx

/-- Inserting into a sorted list permutes consing. -/
theorem insertLotBy_perm (le : PurchaseLot → PurchaseLot → Bool)
    (a : PurchaseLot) (l : List PurchaseLot) :
    List.Perm (insertLotBy le a l) (a :: l) := by
  induction l with
  | nil => exact List.Perm.refl _
  | cons b t ih =>
      unfold insertLotBy
      by_cases h : le a b
      · rw [if_pos h]
      · rw [if_neg h]
        exact List.Perm.trans (List.Perm.cons b ih) (List.Perm.swap a b t)

/-- Sorting permutes the list. -/
theorem sortLotsBy_perm (le : PurchaseLot → PurchaseLot → Bool)
    (l : List PurchaseLot) : List.Perm (sortLotsBy le l) l := by
  induction l with
  | nil => exact List.Perm.refl _
  | cons a t ih =>
      exact List.Perm.trans (insertLotBy_perm le a (sortLotsBy le t))
        (List.Perm.cons a ih)

/-- The FIFO query result is a permutation of the positive-remainder lots
of the pair. -/
theorem fifoLots_perm (db : DB) (pid wid : Int) :
    List.Perm (fifoLots db pid wid)
      (db.lots.filter (fun l =>
        decide (l.product_id = pid) && decide (l.warehouse_id = wid) &&
          decide (0 < l.quantity_remaining))) :=
  sortLotsBy_perm _ _

/-- Membership in the FIFO query result. -/
theorem mem_fifoLots {db : DB} {pid wid : Int} {l : PurchaseLot} :
    l ∈ fifoLots db pid wid ↔
      l ∈ db.lots ∧ l.product_id = pid ∧ l.warehouse_id = wid ∧
        0 < l.quantity_remaining := by
  rw [(fifoLots_perm db pid wid).mem_iff, List.mem_filter]
  simp [and_assoc]

/-- The FIFO query result has pairwise distinct lot ids whenever the lots
table does. -/
theorem fifoLots_ids_nodup {db : DB} (pid wid : Int)
    (h : (db.lots.map PurchaseLot.id).Nodup) :
    ((fifoLots db pid wid).map PurchaseLot.id).Nodup := by
  have hfil : ((db.lots.filter (fun l =>
      decide (l.product_id = pid) && decide (l.warehouse_id = wid) &&
        decide (0 < l.quantity_remaining))).map PurchaseLot.id).Nodup :=
    ((List.filter_sublist db.lots).map PurchaseLot.id).nodup h
  exact (((fifoLots_perm db pid wid).map PurchaseLot.id).nodup_iff).mpr hfil

/-- The FIFO query result carries exactly the pair's positive remainders. -/
theorem fifoLots_sum (db : DB) (pid wid : Int) :
    ((fifoLots db pid wid).map PurchaseLot.quantity_remaining).sum =
      posRemaining db pid wid :=
  ((fifoLots_perm db pid wid).map PurchaseLot.quantity_remaining).sum_eq

/-- Sums of positive remainders are non-negative. -/
theorem sum_rem_nonneg {lots : List PurchaseLot}
    (h : ∀ l ∈ lots, 0 < l.quantity_remaining) :
    0 ≤ (lots.map PurchaseLot.quantity_remaining).sum := by
  apply List.sum_nonneg
  intro x hx
  obtain ⟨l, hl, hlx⟩ := List.mem_map.mp hx
  subst hlx
  exact le_of_lt (h l hl)

/-- A map that fixes every element of a list is the identity on it. -/
theorem map_noop {f : PurchaseLot → PurchaseLot} :
    ∀ (t : List PurchaseLot), (∀ x ∈ t, f x = x) → t.map f = t := by
  intro t
  induction t with
  | nil => exact fun h => rfl
  | cons a s ih =>
      intro h
      rw [List.map_cons, h a (List.mem_cons_self _ _),
        ih (fun x hx => h x (List.mem_cons_of_mem _ hx))]

/-- Replacing the unique row carrying `lot.id` by `lot'` moves the pair's
remainder sum by exactly the remainder difference. -/
theorem sum_filter_replace (pid wid : Int) (lot lot' : PurchaseLot)
    (hid : lot'.id = lot.id)
    (hpair : (decide (lot.product_id = pid) && decide (lot.warehouse_id = wid)) = true)
    (hpair' : (decide (lot'.product_id = pid) && decide (lot'.warehouse_id = wid)) = true) :
    ∀ (L : List PurchaseLot), lot ∈ L → (L.map PurchaseLot.id).Nodup →
      (((L.map (fun x => if x.id = lot.id then lot' else x)).filter
          (fun l => decide (l.product_id = pid) && decide (l.warehouse_id = wid))).map
        PurchaseLot.quantity_remaining).sum =
      ((L.filter (fun l => decide (l.product_id = pid) && decide (l.warehouse_id = wid))).map
        PurchaseLot.quantity_remaining).sum
        - lot.quantity_remaining + lot'.quantity_remaining := by
  intro L
  induction L with
  | nil => intro hmem; cases hmem
  | cons a t ih =>
      intro hmem hnd
      rw [List.map_cons, List.nodup_cons] at hnd
      obtain ⟨hna, hnt⟩ := hnd
      by_cases hida : a.id = lot.id
      · have ha : a = lot := by
          rcases List.mem_cons.mp hmem with h | h
          · exact h.symm
          · exact absurd (hida ▸ List.mem_map_of_mem PurchaseLot.id h) hna
        subst ha
        rw [List.map_cons, if_pos hida]
        have htid : t.map (fun x => if x.id = a.id then lot' else x) = t := by
          apply map_noop
          intro x hx
          rw [if_neg]
          intro hxa
          exact hna (hxa ▸ List.mem_map_of_mem PurchaseLot.id hx)
        rw [htid, List.filter_cons, List.filter_cons, if_pos hpair', if_pos hpair]
        rw [List.map_cons, List.map_cons, List.sum_cons, List.sum_cons]
        omega
      · have hmt : lot ∈ t := by
          rcases List.mem_cons.mp hmem with h | h
          · exact absurd (h ▸ rfl) hida
          · exact h
        rw [List.map_cons, if_neg hida, List.filter_cons, List.filter_cons]
        by_cases hpa : (decide (a.product_id = pid) && decide (a.warehouse_id = wid)) = true
        · rw [if_pos hpa, if_pos hpa, List.map_cons, List.map_cons,
            List.sum_cons, List.sum_cons]
          have := ih hmt hnt
          omega
        · rw [if_neg hpa, if_neg hpa]
          exact ih hmt hnt

/-- Core FIFO accounting: walking a duplicate-free list of the pair's
positive lots consumes `min q (total remaining)`, records one allocation
per touched lot summing to exactly the consumed quantity, removes that
quantity from the pair's remainder sum, and preserves the set of lot ids. -/
theorem fifoLoop_spec (iid pid wid : Int) :
    ∀ (lots : List PurchaseLot) (db : DB) (q : Int) (c : Rat),
      0 ≤ q →
      (∀ l ∈ lots, l ∈ db.lots ∧ l.product_id = pid ∧ l.warehouse_id = wid ∧
        0 < l.quantity_remaining) →
      (lots.map PurchaseLot.id).Nodup →
      (db.lots.map PurchaseLot.id).Nodup →
      ∃ A, (fifoLoop iid db lots q c).2.2.allocations = db.allocations ++ A ∧
        (A.map LotAllocation.quantity).sum =
          min q ((lots.map PurchaseLot.quantity_remaining).sum) ∧
        lotRemSum (fifoLoop iid db lots q c).2.2 pid wid =
          lotRemSum db pid wid - min q ((lots.map PurchaseLot.quantity_remaining).sum) ∧
        (fifoLoop iid db lots q c).2.2.lots.map PurchaseLot.id =
          db.lots.map PurchaseLot.id := by
  intro lots
  induction lots with
  | nil =>
      intro db q c hq hall hnd hdbnd
      refine ⟨[], by simp [fifoLoop], ?_, ?_, rfl⟩
      · simp only [List.map_nil, List.sum_nil]
        omega
      · simp only [List.map_nil, List.sum_nil]
        show lotRemSum db pid wid = lotRemSum db pid wid - min q 0
        omega
  | cons lot rest ih =>
      intro db q c hq hall hnd hdbnd
      obtain ⟨hmem, hp, hw, hrem⟩ := hall lot (List.mem_cons_self _ _)
      rw [List.map_cons, List.nodup_cons] at hnd
      obtain ⟨hnid, hndrest⟩ := hnd
      have hrestne : ∀ l ∈ rest, l.id ≠ lot.id := by
        intro l hl hle
        exact hnid (hle ▸ List.mem_map_of_mem PurchaseLot.id hl)
      have hsumrest : 0 ≤ (rest.map PurchaseLot.quantity_remaining).sum :=
        sum_rem_nonneg (fun l hl => (hall l (List.mem_cons_of_mem _ hl)).2.2.2)
      unfold fifoLoop
      by_cases hq0 : q ≤ 0
      · rw [if_pos hq0]
        refine ⟨[], by simp, ?_, ?_, rfl⟩
        · simp only [List.map_nil, List.sum_nil, List.map_cons, List.sum_cons]
          omega
        · simp only [List.map_cons, List.sum_cons]
          have : min q (lot.quantity_remaining +
              (rest.map PurchaseLot.quantity_remaining).sum) = 0 := by omega
          rw [this]
          omega
      · rw [if_neg hq0]
        have hids : (db.lots.map
            (fun x => if x.id = lot.id then
              { lot with quantity_remaining :=
                  lot.quantity_remaining - min q lot.quantity_remaining }
              else x)).map PurchaseLot.id = db.lots.map PurchaseLot.id := by
          rw [List.map_map]
          apply List.map_congr_left
          intro x hx
          by_cases hxid : x.id = lot.id
          · simp [Function.comp, hxid]
          · simp [Function.comp, hxid]
        obtain ⟨A', ha1, ha2, ha3, ha4⟩ := ih
          { db with
              lots := db.lots.map (fun x => if x.id = lot.id then
                { lot with quantity_remaining :=
                    lot.quantity_remaining - min q lot.quantity_remaining }
                else x),
              allocations := db.allocations ++
                [⟨iid, lot.id, min q lot.quantity_remaining, lot.unit_cost⟩] }
          (q - min q lot.quantity_remaining)
          (c + (min q lot.quantity_remaining : Int) * lot.unit_cost)
          (by omega)
          (by
            intro l hl
            obtain ⟨hm, hlp, hlw, hlr⟩ := hall l (List.mem_cons_of_mem _ hl)
            refine ⟨?_, hlp, hlw, hlr⟩
            show l ∈ db.lots.map _
            have hfl := List.mem_map_of_mem
              (fun x => if x.id = lot.id then
                { lot with quantity_remaining :=
                    lot.quantity_remaining - min q lot.quantity_remaining }
                else x) hm
            simp only [if_neg (hrestne l hl)] at hfl
            exact hfl)
          hndrest
          (by
            show ((db.lots.map _).map PurchaseLot.id).Nodup
            rw [hids]
            exact hdbnd)
        refine ⟨⟨iid, lot.id, min q lot.quantity_remaining, lot.unit_cost⟩ :: A',
          ?_, ?_, ?_, ?_⟩
        · rw [ha1]
          show (db.allocations ++ [_]) ++ A' = _
          rw [List.append_assoc]
          rfl
        · rw [List.map_cons, List.sum_cons, ha2, List.map_cons, List.sum_cons]
          have hproj : (⟨iid, lot.id, min q lot.quantity_remaining,
              lot.unit_cost⟩ : LotAllocation).quantity =
              min q lot.quantity_remaining := rfl
          rw [hproj]
          omega
        · rw [ha3, List.map_cons, List.sum_cons]
          have hrepl := sum_filter_replace pid wid lot
            { lot with quantity_remaining :=
                lot.quantity_remaining - min q lot.quantity_remaining }
            rfl (by simp [hp, hw]) (by simp [hp, hw]) db.lots hmem hdbnd
          have hproj : ({ lot with quantity_remaining :=
              lot.quantity_remaining - min q lot.quantity_remaining
                } : PurchaseLot).quantity_remaining =
              lot.quantity_remaining - min q lot.quantity_remaining := rfl
          show lotRemSum _ pid wid - _ = _
          unfold lotRemSum at *
          rw [hrepl, hproj]
          omega
        · rw [ha4]
          exact hids

/-- Specification of `_fifo_consume_with_allocations` on well-formed lot
tables: allocations appended for the touched lots sum to
`min q (positive remainders)`, the pair's remainder sum drops by exactly
that amount, and the lot ids are untouched. -/
theorem fifo_consume_spec (db : DB) (iid pid wid q : Int) (an : Bool)
    (hq : 0 ≤ q) (hnd : (db.lots.map PurchaseLot.id).Nodup) :
    ∃ A, (fifo_consume_with_allocations db iid pid wid q an).2.allocations =
        db.allocations ++ A ∧
      (A.map LotAllocation.quantity).sum = min q (posRemaining db pid wid) ∧
      lotRemSum (fifo_consume_with_allocations db iid pid wid q an).2 pid wid =
        lotRemSum db pid wid - min q (posRemaining db pid wid) ∧
      (fifo_consume_with_allocations db iid pid wid q an).2.lots.map PurchaseLot.id =
        db.lots.map PurchaseLot.id := by
  obtain ⟨A, h1, h2, h3, h4⟩ := fifoLoop_spec iid pid wid (fifoLots db pid wid) db q 0 hq
    (fun l hl => mem_fifoLots.mp hl)
    (fifoLots_ids_nodup pid wid hnd) hnd
  rw [fifoLots_sum] at h2 h3
  refine ⟨A, ?_, h2, ?_, ?_⟩
  · rw [fifo_consume_snd]
    exact h1
  · rw [fifo_consume_snd]
    exact h3
  · rw [fifo_consume_snd]
    exact h4

/-- `_fifo_consume_with_allocations` preserves lot non-negativity. -/
theorem fifo_consume_nonneg (db : DB) (iid pid wid q : Int) (an : Bool)
    (h : lotsNonneg db) :
    lotsNonneg (fifo_consume_with_allocations db iid pid wid q an).2 := by
  rw [fifo_consume_snd]
  exact fifoLoop_nonneg iid (fifoLots db pid wid) db q 0 h

/-- Inversion of a successful `_sale_item` call: the posted line's price,
cost and profit fields, the exact stock decrease, the allocation sum
(`min` of quantity and available positive remainders — the fallback path
is the `<` case), the matching lot-remainder drop, and preservation of lot
non-negativity. -/
theorem sale_item_ok {db : DB} {txn : Transaction} {o pid qty : Int} {sp : Rat}
    {an : Bool} {item : TransactionItem} {db' : DB}
    (h : sale_item db txn o pid qty sp an = .ok (item, db')) :
    0 < qty ∧
    (∃ c, item = ⟨db.next_item_id, txn.id, pid, qty, sp, (qty : Rat) * sp,
      some c, some ((qty : Rat) * sp - c)⟩) ∧
    db'.products = db.products ∧
    db'.transactions = db.transactions ∧
    stockQty db' pid txn.warehouse_id = stockQty db pid txn.warehouse_id - qty ∧
    ((db.lots.map PurchaseLot.id).Nodup →
      ∃ A, db'.allocations = db.allocations ++ A ∧
        (A.map LotAllocation.quantity).sum =
          min qty (posRemaining db pid txn.warehouse_id) ∧
        lotRemSum db pid txn.warehouse_id - lotRemSum db' pid txn.warehouse_id =
          (A.map LotAllocation.quantity).sum) ∧
    (lotsNonneg db → lotsNonneg db') := by
  unfold sale_item at h
  cases hfp : findProduct db pid with
  | none =>
      rw [hfp] at h
      exact Except.noConfusion h
  | some p =>
      rw [hfp] at h
      simp only [] at h
      by_cases hq : qty ≤ 0
      · rw [if_pos hq] at h
        exact Except.noConfusion h
      · rw [if_neg hq] at h
        rcases get_or_create_cases db pid txn.warehouse_id with
          ⟨hfs, hdb⟩ | ⟨hfs, hs1, hdb⟩
        · rw [hdb] at h
          split at h
          · exact Except.noConfusion h
          · injection h with hpair
            rw [Prod.ext_iff] at hpair
            obtain ⟨hi, hd⟩ := hpair
            subst hi
            subst hd
            set dbi : DB :=
              ({ db with
                  items := db.items ++
                    [⟨db.next_item_id, txn.id, pid, qty, sp, (qty : Rat) * sp,
                      none, none⟩],
                  next_item_id := db.next_item_id + 1 }) with hdbi
            refine ⟨by omega, ⟨_, rfl⟩, ?_, ?_, ?_, ?_, ?_⟩
            · exact (fifo_consume_frame dbi
                db.next_item_id pid txn.warehouse_id qty an).1
            · exact (fifo_consume_frame dbi
                db.next_item_id pid txn.warehouse_id qty an).2.2.2.1
            · exact stockQty_bump_found hfs _
                ((fifo_consume_frame dbi
                  db.next_item_id pid txn.warehouse_id qty an).2.1) (-qty)
            · intro hnd
              obtain ⟨A, ha1, ha2, ha3, ha4⟩ := fifo_consume_spec dbi
                db.next_item_id pid txn.warehouse_id qty an (by omega) hnd
              refine ⟨A, ha1, ha2, ?_⟩
              show lotRemSum db pid txn.warehouse_id -
                  lotRemSum (fifo_consume_with_allocations dbi db.next_item_id pid
                    txn.warehouse_id qty an).2 pid txn.warehouse_id = _
              rw [ha3, ha2]
              have hb : lotRemSum dbi pid txn.warehouse_id =
                  lotRemSum db pid txn.warehouse_id := rfl
              have hc : posRemaining dbi pid txn.warehouse_id =
                  posRemaining db pid txn.warehouse_id := rfl
              rw [hb, hc]
              omega
            · intro hln
              exact fifo_consume_nonneg dbi db.next_item_id pid
                txn.warehouse_id qty an hln
        · rw [hdb, hs1] at h
          simp only [] at h
          split at h
          · exact Except.noConfusion h
          · injection h with hpair
            rw [Prod.ext_iff] at hpair
            obtain ⟨hi, hd⟩ := hpair
            subst hi
            subst hd
            set dbi : DB :=
              ({ db with
                  stocks := db.stocks ++ [⟨db.next_stock_id, pid, txn.warehouse_id, 0⟩],
                  next_stock_id := db.next_stock_id + 1,
                  items := db.items ++
                    [⟨db.next_item_id, txn.id, pid, qty, sp, (qty : Rat) * sp,
                      none, none⟩],
                  next_item_id := db.next_item_id + 1 }) with hdbi
            refine ⟨by omega, ⟨_, rfl⟩, ?_, ?_, ?_, ?_, ?_⟩
            · exact (fifo_consume_frame dbi
                db.next_item_id pid txn.warehouse_id qty an).1
            · exact (fifo_consume_frame dbi
                db.next_item_id pid txn.warehouse_id qty an).2.2.2.1
            · exact stockQty_bump_created hfs db.next_stock_id (-qty) _
                ((fifo_consume_frame dbi
                  db.next_item_id pid txn.warehouse_id qty an).2.1)
            · intro hnd
              obtain ⟨A, ha1, ha2, ha3, ha4⟩ := fifo_consume_spec dbi
                db.next_item_id pid txn.warehouse_id qty an (by omega) hnd
              refine ⟨A, ha1, ha2, ?_⟩
              show lotRemSum db pid txn.warehouse_id -
                  lotRemSum (fifo_consume_with_allocations dbi db.next_item_id pid
                    txn.warehouse_id qty an).2 pid txn.warehouse_id = _
              rw [ha3, ha2]
              have hb : lotRemSum dbi pid txn.warehouse_id =
                  lotRemSum db pid txn.warehouse_id := rfl
              have hc : posRemaining dbi pid txn.warehouse_id =
                  posRemaining db pid txn.warehouse_id := rfl
              rw [hb, hc]
              omega
            · intro hln
              exact fifo_consume_nonneg dbi db.next_item_id pid
                txn.warehouse_id qty an hln

/-! ## Posting-loop lemmas -/

/-- A successful posting loop never touches the product or transaction
tables and preserves lot non-negativity. -/
theorem post_items_ok_frame (txn : Transaction) (o : Int) (ttype : String)
    (an : Bool) :
    ∀ (items : List ItemRow) (db : DB) (its : List TransactionItem) (db' : DB),
      post_items txn o ttype an db items = .ok (its, db') →
      db'.products = db.products ∧ db'.transactions = db.transactions ∧
      (lotsNonneg db → lotsNonneg db') := by
  intro items
  induction items with
  | nil =>
      intro db its db' h
      unfold post_items at h
      injection h with hpair
      rw [Prod.ext_iff] at hpair
      obtain ⟨h1, h2⟩ := hpair
      subst h2
      exact ⟨rfl, rfl, fun x => x⟩
  | cons row rest ih =>
      intro db its db' h
      unfold post_items at h
      cases hp1 : row.product_id with
      | none => rw [hp1] at h; exact Except.noConfusion h
      | some pid =>
      cases hp2 : row.quantity with
      | none => rw [hp1, hp2] at h; exact Except.noConfusion h
      | some qty =>
      cases hp3 : row.unit_price with
      | none => rw [hp1, hp2, hp3] at h; exact Except.noConfusion h
      | some up =>
      rw [hp1, hp2, hp3] at h
      simp only [] at h
      by_cases hq : qty ≤ 0
      · rw [if_pos hq] at h
        exact Except.noConfusion h
      · rw [if_neg hq] at h
        by_cases ht : ttype = "Purchase"
        · rw [if_pos ht] at h
          cases hpi : purchase_item db txn o pid qty up with
          | error e => rw [hpi] at h; exact Except.noConfusion h
          | ok pr =>
              obtain ⟨item1, db1⟩ := pr
              rw [hpi] at h
              simp only [] at h
              cases hrest : post_items txn o ttype an db1 rest with
              | error e => rw [hrest] at h; exact Except.noConfusion h
              | ok pr2 =>
                  obtain ⟨its2, db2⟩ := pr2
                  rw [hrest] at h
                  injection h with hpair
                  rw [Prod.ext_iff] at hpair
                  obtain ⟨h1, h2⟩ := hpair
                  subst h2
                  obtain ⟨hq0, hitem, hprod, htxn, _halloc, _hitems, hlots, _hstk⟩ :=
                    purchase_item_ok hpi
                  obtain ⟨ih1, ih2, ih3⟩ := ih db1 its2 db2 hrest
                  refine ⟨ih1.trans hprod, ih2.trans htxn, fun hln => ih3 ?_⟩
                  intro l hl
                  rw [hlots] at hl
                  rcases List.mem_append.mp hl with hl | hl
                  · exact hln l hl
                  · rcases List.mem_singleton.mp hl with rfl
                    show (0:Int) ≤ qty
                    omega
        · rw [if_neg ht] at h
          cases hpi : sale_item db txn o pid qty up an with
          | error e => rw [hpi] at h; exact Except.noConfusion h
          | ok pr =>
              obtain ⟨item1, db1⟩ := pr
              rw [hpi] at h
              simp only [] at h
              cases hrest : post_items txn o ttype an db1 rest with
              | error e => rw [hrest] at h; exact Except.noConfusion h
              | ok pr2 =>
                  obtain ⟨its2, db2⟩ := pr2
                  rw [hrest] at h
                  injection h with hpair
                  rw [Prod.ext_iff] at hpair
                  obtain ⟨h1, h2⟩ := hpair
                  subst h2
                  obtain ⟨hq0, hitem, hprod, htxn, _hstk, _halloc, hnn⟩ :=
                    sale_item_ok hpi
                  obtain ⟨ih1, ih2, ih3⟩ := ih db1 its2 db2 hrest
                  exact ⟨ih1.trans hprod, ih2.trans htxn, fun hln => ih3 (hnn hln)⟩

/-- Inversion of a successful atomic unit: the final state is the one the
posting loop produced, starting from the state holding the new header. -/
theorem post_transaction_ok {db : DB} {ttype : String} {pa wh u o : Int}
    {items : List ItemRow} {n : Option String} {an : Bool} {okv : CreateOk}
    (h : (post_transaction db ttype pa wh u items o n an).2 = .ok okv) :
    ∃ db1, post_items (create_header db ttype pa wh u n).1 o ttype an
        (create_header db ttype pa wh u n).2 items = .ok (okv.items, db1) ∧
      (post_transaction db ttype pa wh u items o n an).1 = db1 ∧
      okv.txn = (create_header db ttype pa wh u n).1 := by
  unfold post_transaction at h ⊢
  simp only [] at h ⊢
  cases hp : post_items (create_header db ttype pa wh u n).1 o ttype an
      (create_header db ttype pa wh u n).2 items with
  | error e =>
      simp only [hp] at h
      exact Except.noConfusion h
  | ok pr =>
      obtain ⟨its, db1⟩ := pr
      simp only [hp] at h
      injection h with hok
      subst hok
      exact ⟨db1, rfl, rfl, rfl⟩

/-- Inversion of a successful `create_transaction` call. -/
theorem create_transaction_ok {db : DB} {ttype : String} {pa wh u o : Int}
    {items : List ItemRow} {n : Option String} {an : Bool} {okv : CreateOk}
    (h : (create_transaction db ttype pa wh u items o n an).2 = .ok okv) :
    ∃ db1, post_items (create_header db ttype pa wh u n).1 o ttype an
        (create_header db ttype pa wh u n).2 items = .ok (okv.items, db1) ∧
      (create_transaction db ttype pa wh u items o n an).1 = db1 ∧
      okv.txn = (create_header db ttype pa wh u n).1 := by
  unfold create_transaction at h ⊢
  by_cases h1 : ttype = "Purchase" ∨ ttype = "Sale"
  · rw [if_pos h1] at h ⊢
    by_cases h2 : ttype = "Sale" ∧ an = false
    · rw [if_pos h2] at h ⊢
      cases hp : precheck_sale_stock db items wh with
      | some e =>
          rw [hp] at h
          exact Except.noConfusion h
      | none =>
          rw [hp] at h
          exact post_transaction_ok h
    · rw [if_neg h2] at h ⊢
      exact post_transaction_ok h
  · rw [if_neg h1] at h
    exact Except.noConfusion h

/-- `create_transaction` never changes the products table — in particular
the legacy cached `Product.quantity` mirror is never updated by posting. -/
theorem create_transaction_products (db : DB) (ttype : String)
    (pa wh u o : Int) (items : List ItemRow) (n : Option String) (an : Bool) :
    (create_transaction db ttype pa wh u items o n an).1.products =
      db.products := by
  cases hr : (create_transaction db ttype pa wh u items o n an).2 with
  | error e => rw [create_transaction_rollback hr]
  | ok okv =>
      obtain ⟨db1, hpi, h1, _⟩ := create_transaction_ok hr
      rw [h1]
      exact (post_items_ok_frame _ _ _ _ _ _ _ _ hpi).1

/-- `create_transaction` preserves lot non-negativity. -/
theorem create_transaction_nonneg (db : DB) (ttype : String)
    (pa wh u o : Int) (items : List ItemRow) (n : Option String) (an : Bool)
    (h : lotsNonneg db) :
    lotsNonneg (create_transaction db ttype pa wh u items o n an).1 := by
  cases hr : (create_transaction db ttype pa wh u items o n an).2 with
  | error e =>
      rw [create_transaction_rollback hr]
      exact h
  | ok okv =>
      obtain ⟨db1, hpi, h1, _⟩ := create_transaction_ok hr
      rw [h1]
      exact (post_items_ok_frame _ _ _ _ _ _ _ _ hpi).2.2 h

/-! ## Error classification under `allow_negative` -/

/-- `_purchase_item` only fails on a missing product or a non-positive
quantity. -/
theorem purchase_item_err {db : DB} {txn : Transaction} {o pid qty : Int}
    {uc : Rat} {e : TxnError}
    (h : purchase_item db txn o pid qty uc = .error e) :
    e = .productNotFound ∨ e = .nonPositiveQty := by
  unfold purchase_item at h
  cases hfp : findProduct db pid with
  | none =>
      rw [hfp] at h
      injection h with he
      exact Or.inl he.symm
  | some p =>
      rw [hfp] at h
      by_cases hq : qty ≤ 0
      · rw [if_pos hq] at h
        injection h with he
        exact Or.inr he.symm
      · rw [if_neg hq] at h
        exact Except.noConfusion h

/-- With `allow_negative` set, `_sale_item` performs no stock check: it only
fails on a missing product or a non-positive quantity. -/
theorem sale_item_err_allowneg {db : DB} {txn : Transaction} {o pid qty : Int}
    {sp : Rat} {e : TxnError}
    (h : sale_item db txn o pid qty sp true = .error e) :
    e = .productNotFound ∨ e = .nonPositiveQty := by
  unfold sale_item at h
  cases hfp : findProduct db pid with
  | none =>
      rw [hfp] at h
      injection h with he
      exact Or.inl he.symm
  | some p =>
      rw [hfp] at h
      simp only [] at h
      by_cases hq : qty ≤ 0
      · rw [if_pos hq] at h
        injection h with he
        exact Or.inr he.symm
      · rw [if_neg hq] at h
        simp only [Bool.not_true, Bool.false_and] at h
        rw [if_neg Bool.false_ne_true] at h
        exact Except.noConfusion h

/-- With `allow_negative` set, the posting loop never produces a pre-check
or an insufficient-stock error. -/
theorem post_items_err_allowneg (txn : Transaction) (o : Int) (ttype : String) :
    ∀ (items : List ItemRow) (db : DB) (e : TxnError),
      post_items txn o ttype true db items = .error e →
      e = .productNotFound ∨ e = .nonPositiveQty ∨ e = .internalError := by
  intro items
  induction items with
  | nil =>
      intro db e h
      unfold post_items at h
      exact Except.noConfusion h
  | cons row rest ih =>
      intro db e h
      unfold post_items at h
      cases hp1 : row.product_id with
      | none =>
          rw [hp1] at h
          injection h with he
          exact Or.inr (Or.inr he.symm)
      | some pid =>
      cases hp2 : row.quantity with
      | none =>
          rw [hp1, hp2] at h
          injection h with he
          exact Or.inr (Or.inr he.symm)
      | some qty =>
      cases hp3 : row.unit_price with
      | none =>
          rw [hp1, hp2, hp3] at h
          injection h with he
          exact Or.inr (Or.inr he.symm)
      | some up =>
      rw [hp1, hp2, hp3] at h
      simp only [] at h
      by_cases hq : qty ≤ 0
      · rw [if_pos hq] at h
        injection h with he
        exact Or.inr (Or.inl he.symm)
      · rw [if_neg hq] at h
        by_cases ht : ttype = "Purchase"
        · rw [if_pos ht] at h
          cases hpi : purchase_item db txn o pid qty up with
          | error e1 =>
              rw [hpi] at h
              simp only [] at h
              injection h with he
              subst he
              rcases purchase_item_err hpi with h' | h'
              · exact Or.inl h'
              · exact Or.inr (Or.inl h')
          | ok pr =>
              obtain ⟨item1, db1⟩ := pr
              rw [hpi] at h
              simp only [] at h
              cases hrest : post_items txn o ttype true db1 rest with
              | error e1 =>
                  rw [hrest] at h
                  injection h with he
                  subst he
                  exact ih db1 e1 hrest
              | ok pr2 =>
                  obtain ⟨its2, db2⟩ := pr2
                  rw [hrest] at h
                  exact Except.noConfusion h
        · rw [if_neg ht] at h
          cases hpi : sale_item db txn o pid qty up true with
          | error e1 =>
              rw [hpi] at h
              simp only [] at h
              injection h with he
              subst he
              rcases sale_item_err_allowneg hpi with h' | h'
              · exact Or.inl h'
              · exact Or.inr (Or.inl h')
          | ok pr =>
              obtain ⟨item1, db1⟩ := pr
              rw [hpi] at h
              simp only [] at h
              cases hrest : post_items txn o ttype true db1 rest with
              | error e1 =>
                  rw [hrest] at h
                  injection h with he
                  subst he
                  exact ih db1 e1 hrest
              | ok pr2 =>
                  obtain ⟨its2, db2⟩ := pr2
                  rw [hrest] at h
                  exact Except.noConfusion h

/-- With `allow_negative` set, `create_transaction` never returns a
pre-check or an insufficient-stock error: no stock-sufficiency check runs
at any point. -/
theorem create_transaction_err_allowneg {db : DB} {ttype : String}
    {pa wh u o : Int} {items : List ItemRow} {n : Option String} {e : TxnError}
    (h : (create_transaction db ttype pa wh u items o n true).2 = .error e) :
    e = .invalidType ∨ e = .productNotFound ∨ e = .nonPositiveQty ∨
      e = .internalError := by
  unfold create_transaction at h
  by_cases h1 : ttype = "Purchase" ∨ ttype = "Sale"
  · rw [if_pos h1] at h
    have h2 : ¬(ttype = "Sale" ∧ (true : Bool) = false) := by simp
    rw [if_neg h2] at h
    unfold post_transaction at h
    cases hp : post_items (create_header db ttype pa wh u n).1 o ttype true
        (create_header db ttype pa wh u n).2 items with
    | error e1 =>
        simp only [hp] at h
        injection h with he
        subst he
        rcases post_items_err_allowneg _ _ _ _ _ _ hp with h' | h' | h'
        · exact Or.inr (Or.inl h')
        · exact Or.inr (Or.inr (Or.inl h'))
        · exact Or.inr (Or.inr (Or.inr h'))
    | ok pr =>
        obtain ⟨its, db1⟩ := pr
        simp only [hp] at h
        exact Except.noConfusion h
  · rw [if_neg h1] at h
    injection h with he
    exact Or.inl he.symm

/-- C1: every call to `create_transaction` that returns an error leaves the
persistent state equal to the state before the call: no transaction header,
item, lot, allocation or movement row is added and no stock or lot quantity
changes (the whole `DB` record is unchanged). -/
theorem createTransaction_error_is_full_rollback {db : DB} {ttype : String}
    {pa wh u o : Int} {items : List ItemRow} {n : Option String} {an : Bool}
    {e : TxnError}
    (h : (create_transaction db ttype pa wh u items o n an).2 = Except.error e) :
    (create_transaction db ttype pa wh u items o n an).1 = db :=
  create_transaction_rollback h

/-- Witness for C1: a concrete failing call (unknown product on the second
line of a purchase) rolls back to the exact initial state. -/
theorem createTransaction_error_is_full_rollback_witness :
    (create_transaction (oneLotDB 10 5) "Purchase" 1 1 1
      [⟨some 1, some 2, some 4⟩, ⟨some 99, some 2, some 4⟩] 1 none false).2 =
        (Except.error TxnError.productNotFound : Except TxnError CreateOk) ∧
    (create_transaction (oneLotDB 10 5) "Purchase" 1 1 1
      [⟨some 1, some 2, some 4⟩, ⟨some 99, some 2, some 4⟩] 1 none false).1 =
        oneLotDB 10 5 :=
  ⟨by decide,
   createTransaction_error_is_full_rollback
     (e := TxnError.productNotFound) (by decide)⟩

/-! ## Claim C7: no negative lot after any posting sequence -/

instance (db : DB) : Decidable (lotsNonneg db) :=
  inferInstanceAs (Decidable (∀ l ∈ db.lots, 0 ≤ l.quantity_remaining))

/-- Auxiliary: the fold over a request list preserves lot non-negativity. -/
theorem runPostings_nonneg (reqs : List PostRequest) :
    ∀ (db : DB), lotsNonneg db → lotsNonneg (runPostings db reqs) := by
  induction reqs with
  | nil => exact fun db h => h
  | cons r rs ih =>
      intro db h
      show lotsNonneg (List.foldl applyRequest (applyRequest db r) rs)
      exact ih _ (create_transaction_nonneg _ _ _ _ _ _ _ _ _ h)

/-- C7: after any sequence of postings (purchases and sales, with or
without `allow_negative`), every `PurchaseLot.quantity_remaining` stays
non-negative: no sale ever drives any lot's remainder negative. -/
theorem no_negative_lot_after_postings (db : DB) (reqs : List PostRequest)
    (h : lotsNonneg db) : lotsNonneg (runPostings db reqs) :=
  runPostings_nonneg reqs db h

/-- Witness for C7: an oversold sequence (sale of 7, then an
`allow_negative` sale of 99 against 10 on hand) leaves both calls' lots at
non-negative remainders. -/
theorem no_negative_lot_after_postings_witness :
    lotsNonneg (oneLotDB 10 5) ∧
    lotsNonneg (runPostings (oneLotDB 10 5)
      [⟨"Sale", 1, 1, 1, [⟨some 1, some 7, some 8⟩], 1, none, false⟩,
       ⟨"Sale", 1, 1, 1, [⟨some 1, some 99, some 8⟩], 1, none, true⟩]) :=
  ⟨by decide, no_negative_lot_after_postings _ _ (by decide)⟩

/-! ## Claim C8: the legacy product-quantity mirror -/

/-- Counterexample to C8 as stated: a successful purchase of 5 units grows
the pair's stock to 5 but leaves the legacy `Product.quantity` mirror at 0
instead of increasing it by the line quantity. -/
theorem purchase_does_not_touch_product_mirror_cex :
    resultOk (create_transaction (noLotDB (some 7)) "Purchase" 1 1 1
      [⟨some 1, some 5, some 4⟩] 1 none false) = true ∧
    stockQty (create_transaction (noLotDB (some 7)) "Purchase" 1 1 1
      [⟨some 1, some 5, some 4⟩] 1 none false).1 1 1 = 5 ∧
    productQty (noLotDB (some 7)) 1 = some 0 ∧
    productQty (create_transaction (noLotDB (some 7)) "Purchase" 1 1 1
      [⟨some 1, some 5, some 4⟩] 1 none false).1 1 = some 0 ∧
    ¬ productQty (create_transaction (noLotDB (some 7)) "Purchase" 1 1 1
      [⟨some 1, some 5, some 4⟩] 1 none false).1 1 = some (0 + 5) := by
  refine ⟨by decide, by decide, by decide, by decide, by decide⟩

/-- C8 (amended): posting changes no `Product` row at all — in particular
the legacy cached `Product.quantity` mirror is left untouched by both
purchase and sale lines (it is not kept in sync with Stock). -/
theorem posting_never_changes_products (db : DB) (ttype : String)
    (pa wh u o : Int) (items : List ItemRow) (n : Option String) (an : Bool) :
    (create_transaction db ttype pa wh u items o n an).1.products =
      db.products :=
  create_transaction_products db ttype pa wh u o items n an

/-! ## Claim C9: empty item lists -/

/-- Counterexample to C9 as stated: a `Purchase` call with an empty items
list succeeds and commits a transaction header with zero items. -/
theorem empty_purchase_commits_header_cex :
    resultOk (create_transaction emptyDB "Purchase" 1 1 1 [] 1 none false)
      = true ∧
    (create_transaction emptyDB "Purchase" 1 1 1
      [] 1 none false).1.transactions.length = 1 ∧
    postedItems (create_transaction emptyDB "Purchase" 1 1 1 [] 1 none false)
      = [] := by
  refine ⟨by decide, by decide, by decide⟩

/-- C9 (amended): only a Sale without `allow_negative` rejects an empty
items list (via the pre-check's "No items provided.", with no state
change); a Purchase — or a Sale with `allow_negative` — whose items list is
empty commits a transaction header grouping zero items. -/
theorem empty_items_only_rejected_by_sale_precheck :
    (∀ (db : DB) (pa wh u o : Int) (n : Option String),
      (create_transaction db "Sale" pa wh u [] o n false).2 =
        .error (.precheckFailed .noItems) ∧
      (create_transaction db "Sale" pa wh u [] o n false).1 = db) ∧
    (∀ (db : DB) (pa wh u o : Int) (n : Option String) (an : Bool),
      (create_transaction db "Purchase" pa wh u [] o n an).2 =
        .ok ⟨⟨db.next_txn_id, "Purchase", pa, wh, u, n, true⟩, []⟩ ∧
      (create_transaction db "Purchase" pa wh u [] o n an).1.transactions =
        db.transactions ++ [⟨db.next_txn_id, "Purchase", pa, wh, u, n, true⟩] ∧
      (create_transaction db "Purchase" pa wh u [] o n an).1.items =
        db.items) ∧
    (∀ (db : DB) (pa wh u o : Int) (n : Option String),
      (create_transaction db "Sale" pa wh u [] o n true).2 =
        .ok ⟨⟨db.next_txn_id, "Sale", pa, wh, u, n, true⟩, []⟩) := by
  refine ⟨fun db pa wh u o n => ⟨rfl, rfl⟩,
    fun db pa wh u o n an => ⟨rfl, rfl, rfl⟩,
    fun db pa wh u o n => rfl⟩

/-! ## Claim C4: sale pricing, cost and profit -/

/-- C4: for every posted sale line, `total_price = quantity * unit_price`,
`cost_used` is filled from FIFO consumption and
`profit = total_price - cost_used`; concretely, a sale of 4 @ 8.00 against
a lot of 10 @ 5.00 yields cost 20.00, profit 12.00 and remainder 6, and
the cross-lot sale of 7 @ 10.00 against 5 @ 2.00 then 5 @ 3.00 yields
cost 16.00, total 70.00, profit 54.00 with allocations of 5 and 2. -/
theorem sale_line_pricing :
    (∀ (db : DB) (txn : Transaction) (o pid qty : Int) (sp : Rat) (an : Bool)
        (item : TransactionItem),
      okItem? (sale_item db txn o pid qty sp an) = some item →
      item.quantity = qty ∧ item.unit_price = sp ∧
      item.total_price = (qty : Rat) * sp ∧
      ∃ c, item.cost_used = some c ∧
        item.profit = some (item.total_price - c)) ∧
    ((postedItems (create_transaction (oneLotDB 10 5) "Sale" 1 1 1
        [⟨some 1, some 4, some 8⟩] 1 none false)).map TransactionItem.cost_used
        = [some 20] ∧
      (postedItems (create_transaction (oneLotDB 10 5) "Sale" 1 1 1
        [⟨some 1, some 4, some 8⟩] 1 none false)).map TransactionItem.profit
        = [some 12] ∧
      (postedItems (create_transaction (oneLotDB 10 5) "Sale" 1 1 1
        [⟨some 1, some 4, some 8⟩] 1 none false)).map TransactionItem.total_price
        = [32] ∧
      lotRemaining (create_transaction (oneLotDB 10 5) "Sale" 1 1 1
        [⟨some 1, some 4, some 8⟩] 1 none false).1 1 = some 6) ∧
    ((postedItems (create_transaction (twoLotDB (some 7) 0 1 5 5 2 3) "Sale" 1 1 1
        [⟨some 1, some 7, some 10⟩] 1 none false)).map TransactionItem.cost_used
        = [some 16] ∧
      (postedItems (create_transaction (twoLotDB (some 7) 0 1 5 5 2 3) "Sale" 1 1 1
        [⟨some 1, some 7, some 10⟩] 1 none false)).map TransactionItem.total_price
        = [70] ∧
      (postedItems (create_transaction (twoLotDB (some 7) 0 1 5 5 2 3) "Sale" 1 1 1
        [⟨some 1, some 7, some 10⟩] 1 none false)).map TransactionItem.profit
        = [some 54] ∧
      (create_transaction (twoLotDB (some 7) 0 1 5 5 2 3) "Sale" 1 1 1
        [⟨some 1, some 7, some 10⟩] 1 none false).1.allocations.map
          LotAllocation.quantity = [5, 2] ∧
      (create_transaction (twoLotDB (some 7) 0 1 5 5 2 3) "Sale" 1 1 1
        [⟨some 1, some 7, some 10⟩] 1 none false).1.allocations.map
          LotAllocation.unit_cost = [2, 3]) := by
  have hsp : ("Sale" : String) ≠ "Purchase" := by decide
  refine ⟨?_, by
      norm_num [if_neg hsp, create_transaction, post_transaction, create_header,
        post_items, sale_item, purchase_item, get_or_create_stock, findProduct,
        findStock, bumpStock, fifo_consume_with_allocations, fifoLots, fifoLoop,
        sortLotsBy, insertLotBy, fifoOrder, lifoOrder, last_lot,
        precheck_sale_stock, aggregateRequested, addRequested, productLabel,
        stockQty, oneLotDB, postedItems, lotRemaining, List.find?, List.filter],
    by
      norm_num [if_neg hsp, create_transaction, post_transaction, create_header,
        post_items, sale_item, purchase_item, get_or_create_stock, findProduct,
        findStock, bumpStock, fifo_consume_with_allocations, fifoLots, fifoLoop,
        sortLotsBy, insertLotBy, fifoOrder, lifoOrder, last_lot,
        precheck_sale_stock, aggregateRequested, addRequested, productLabel,
        stockQty, twoLotDB, postedItems, lotRemaining, List.find?, List.filter]⟩
  intro db txn o pid qty sp an item h
  cases hs : sale_item db txn o pid qty sp an with
  | error e =>
      unfold okItem? at h
      rw [hs] at h
      exact Option.noConfusion h
  | ok pr =>
      obtain ⟨item1, db1⟩ := pr
      unfold okItem? at h
      rw [hs] at h
      injection h with h1
      obtain ⟨hq, ⟨c, hitem⟩, _⟩ := sale_item_ok hs
      rw [← h1, hitem]
      exact ⟨rfl, rfl, rfl, c, rfl, rfl⟩

/-- Witness for C4: the general pricing facts instantiated at the concrete
4-unit sale against a 10 @ 5.00 lot. -/
theorem sale_line_pricing_witness :
    okItem? (sale_item (oneLotDB 10 5) ⟨1, "Sale", 1, 1, 1, none, true⟩
      1 1 4 8 false) = some ⟨1, 1, 1, 4, 8, 32, some 20, some 12⟩ ∧
    ((⟨1, 1, 1, 4, 8, 32, some 20, some 12⟩ : TransactionItem).quantity = 4 ∧
      (⟨1, 1, 1, 4, 8, 32, some 20, some 12⟩ : TransactionItem).unit_price = 8 ∧
      (⟨1, 1, 1, 4, 8, 32, some 20, some 12⟩ : TransactionItem).total_price =
        ((4 : Int) : Rat) * 8 ∧
      ∃ c, (⟨1, 1, 1, 4, 8, 32, some 20, some 12⟩ : TransactionItem).cost_used
          = some c ∧
        (⟨1, 1, 1, 4, 8, 32, some 20, some 12⟩ : TransactionItem).profit =
          some ((⟨1, 1, 1, 4, 8, 32, some 20, some 12⟩ :
            TransactionItem).total_price - c)) := by
  have hok : okItem? (sale_item (oneLotDB 10 5) ⟨1, "Sale", 1, 1, 1, none, true⟩
      1 1 4 8 false) = some ⟨1, 1, 1, 4, 8, 32, some 20, some 12⟩ := by
    norm_num [okItem?, sale_item, purchase_item, get_or_create_stock,
      findProduct, findStock, bumpStock, fifo_consume_with_allocations,
      fifoLots, fifoLoop, sortLotsBy, insertLotBy, fifoOrder, lifoOrder,
      last_lot, stockQty, oneLotDB, List.find?, List.filter]
  exact ⟨hok, sale_line_pricing.1 _ _ _ _ _ _ _ _ hok⟩

/-! ## Claim C6: stock conservation per posted line -/

/-- C6: every successful purchase line adds exactly the line quantity to
the pair's stock and opens exactly one new lot with that remainder; every
successful sale line removes exactly the line quantity from the pair's
stock, and the new allocations sum to `min qty (positive remainders)` —
the full line quantity except on the documented lot-exhausted fallback
path — matching exactly the drop in the pair's lot remainders. -/
theorem stock_and_lot_conservation :
    (∀ (db : DB) (txn : Transaction) (o pid qty : Int) (uc : Rat),
      isOkItem (purchase_item db txn o pid qty uc) = true →
      stockQty (okState db (purchase_item db txn o pid qty uc)) pid
          txn.warehouse_id = stockQty db pid txn.warehouse_id + qty ∧
      ∃ newLot, (okState db (purchase_item db txn o pid qty uc)).lots =
          db.lots ++ [newLot] ∧
        newLot.quantity_remaining = qty ∧ newLot.product_id = pid ∧
        newLot.warehouse_id = txn.warehouse_id ∧ newLot.unit_cost = uc) ∧
    (∀ (db : DB) (txn : Transaction) (o pid qty : Int) (sp : Rat) (an : Bool),
      (db.lots.map PurchaseLot.id).Nodup →
      isOkItem (sale_item db txn o pid qty sp an) = true →
      stockQty (okState db (sale_item db txn o pid qty sp an)) pid
          txn.warehouse_id = stockQty db pid txn.warehouse_id - qty ∧
      ∃ A, (okState db (sale_item db txn o pid qty sp an)).allocations =
          db.allocations ++ A ∧
        (A.map LotAllocation.quantity).sum =
          min qty (posRemaining db pid txn.warehouse_id) ∧
        lotRemSum db pid txn.warehouse_id -
          lotRemSum (okState db (sale_item db txn o pid qty sp an)) pid
            txn.warehouse_id = (A.map LotAllocation.quantity).sum) := by
  constructor
  · intro db txn o pid qty uc h
    cases hs : purchase_item db txn o pid qty uc with
    | error e =>
        unfold isOkItem at h
        rw [hs] at h
        exact Bool.noConfusion h
    | ok pr =>
        obtain ⟨item1, db1⟩ := pr
        obtain ⟨hq, hitem, hprod, htxn, halloc, hitems, hlots, hstk⟩ :=
          purchase_item_ok hs
        unfold okState
        exact ⟨hstk, ⟨_, hlots, rfl, rfl, rfl, rfl⟩⟩
  · intro db txn o pid qty sp an hnd h
    cases hs : sale_item db txn o pid qty sp an with
    | error e =>
        unfold isOkItem at h
        rw [hs] at h
        exact Bool.noConfusion h
    | ok pr =>
        obtain ⟨item1, db1⟩ := pr
        obtain ⟨hq, hitem, hprod, htxn, hstk, hallocs, hnn⟩ :=
          sale_item_ok hs
        unfold okState
        exact ⟨hstk, hallocs hnd⟩

/-- Witness for C6: the conservation facts instantiated at a concrete
purchase of 5 units and a concrete cross-lot sale of 7 units. -/
theorem stock_and_lot_conservation_witness :
    isOkItem (purchase_item (noLotDB (some 7)) ⟨1, "Purchase", 1, 1, 1, none, true⟩
      1 1 5 4) = true ∧
    ((twoLotDB (some 7) 0 1 5 5 2 3).lots.map PurchaseLot.id).Nodup ∧
    isOkItem (sale_item (twoLotDB (some 7) 0 1 5 5 2 3)
      ⟨1, "Sale", 1, 1, 1, none, true⟩ 1 1 7 10 false) = true ∧
    (stockQty (okState (noLotDB (some 7)) (purchase_item (noLotDB (some 7))
        ⟨1, "Purchase", 1, 1, 1, none, true⟩ 1 1 5 4)) 1 1 =
      stockQty (noLotDB (some 7)) 1 1 + 5 ∧
      ∃ newLot, (okState (noLotDB (some 7)) (purchase_item (noLotDB (some 7))
          ⟨1, "Purchase", 1, 1, 1, none, true⟩ 1 1 5 4)).lots =
          (noLotDB (some 7)).lots ++ [newLot] ∧
        newLot.quantity_remaining = 5 ∧ newLot.product_id = 1 ∧
        newLot.warehouse_id = 1 ∧ newLot.unit_cost = 4) ∧
    (stockQty (okState (twoLotDB (some 7) 0 1 5 5 2 3)
        (sale_item (twoLotDB (some 7) 0 1 5 5 2 3)
          ⟨1, "Sale", 1, 1, 1, none, true⟩ 1 1 7 10 false)) 1 1 =
      stockQty (twoLotDB (some 7) 0 1 5 5 2 3) 1 1 - 7 ∧
      ∃ A, (okState (twoLotDB (some 7) 0 1 5 5 2 3)
          (sale_item (twoLotDB (some 7) 0 1 5 5 2 3)
            ⟨1, "Sale", 1, 1, 1, none, true⟩ 1 1 7 10 false)).allocations =
          (twoLotDB (some 7) 0 1 5 5 2 3).allocations ++ A ∧
        (A.map LotAllocation.quantity).sum =
          min 7 (posRemaining (twoLotDB (some 7) 0 1 5 5 2 3) 1 1) ∧
        lotRemSum (twoLotDB (some 7) 0 1 5 5 2 3) 1 1 -
          lotRemSum (okState (twoLotDB (some 7) 0 1 5 5 2 3)
            (sale_item (twoLotDB (some 7) 0 1 5 5 2 3)
              ⟨1, "Sale", 1, 1, 1, none, true⟩ 1 1 7 10 false)) 1 1 =
          (A.map LotAllocation.quantity).sum) :=
  ⟨by decide, by decide, by decide,
   stock_and_lot_conservation.1 _ _ 1 1 5 4 (by decide),
   stock_and_lot_conservation.2 _ _ 1 1 7 10 false (by decide) (by decide)⟩

/-! ## Claim C10: allow_negative disables all stock checks -/

/-- The concrete over-sell scenario under `allow_negative`: a sale of any
positive quantity of an existing product with no stock row and no lots
succeeds and leaves the pair's stock at exactly `-q`. -/
theorem allowneg_sale_goes_negative (q pa u o : Int) (sp : Rat)
    (n : Option String) (hq : 0 < q) :
    resultOk (create_transaction (noLotDB (some 7)) "Sale" pa 1 u
      [⟨some 1, some q, some sp⟩] o n true) = true ∧
    stockQty (create_transaction (noLotDB (some 7)) "Sale" pa 1 u
      [⟨some 1, some q, some sp⟩] o n true).1 1 1 = -q := by
  have hq' : ¬ q ≤ 0 := by omega
  have hss : ¬(("Sale" : String) = "Sale" ∧ (true : Bool) = false) := by simp
  have hsp : ("Sale" : String) ≠ "Purchase" := by decide
  have hor : ("Sale" : String) = "Purchase" ∨ ("Sale" : String) = "Sale" :=
    Or.inr rfl
  constructor <;>
    norm_num [if_neg hq', if_pos hq, if_neg hss, if_neg hsp, if_pos hor,
      create_transaction, post_transaction, create_header, post_items,
      sale_item, get_or_create_stock, findProduct, findStock, bumpStock,
      fifo_consume_with_allocations, fifoLots, fifoLoop, sortLotsBy,
      insertLotBy, last_lot, stockQty, noLotDB, resultOk,
      List.find?, List.filter]

/-- C10: with `allow_negative` true no stock-sufficiency check runs at any
point — neither the aggregate pre-check nor the per-line re-check can
reject the call — and a sale of a positive quantity of a valid product
against a pair with no stock succeeds, leaving that pair's stock strictly
negative. -/
theorem allow_negative_disables_stock_checks :
    (∀ (db : DB) (ttype : String) (pa wh u o : Int) (items : List ItemRow)
        (n : Option String) (e : TxnError),
      (create_transaction db ttype pa wh u items o n true).2 = .error e →
      (∀ pe, e ≠ .precheckFailed pe) ∧ (∀ s a, e ≠ .notEnoughStock s a)) ∧
    (∀ (q pa u o : Int) (sp : Rat) (n : Option String), 0 < q →
      resultOk (create_transaction (noLotDB (some 7)) "Sale" pa 1 u
        [⟨some 1, some q, some sp⟩] o n true) = true ∧
      stockQty (create_transaction (noLotDB (some 7)) "Sale" pa 1 u
        [⟨some 1, some q, some sp⟩] o n true).1 1 1 = -q ∧
      stockQty (create_transaction (noLotDB (some 7)) "Sale" pa 1 u
        [⟨some 1, some q, some sp⟩] o n true).1 1 1 < 0) := by
  constructor
  · intro db ttype pa wh u o items n e h
    rcases create_transaction_err_allowneg h with rfl | rfl | rfl | rfl <;>
      exact ⟨fun pe h' => TxnError.noConfusion h',
        fun s a h' => TxnError.noConfusion h'⟩
  · intro q pa u o sp n hq
    obtain ⟨h1, h2⟩ := allowneg_sale_goes_negative q pa u o sp n hq
    exact ⟨h1, h2, by rw [h2]; omega⟩

/-- Witness for C10: the no-stock-error fact at a concrete failing call and
the negative-stock scenario at quantity 3. -/
theorem allow_negative_disables_stock_checks_witness :
    (create_transaction emptyDB "Bad" 1 1 1 [] 1 none true).2 =
      .error TxnError.invalidType ∧
    ((∀ pe, TxnError.invalidType ≠ .precheckFailed pe) ∧
      (∀ s a, TxnError.invalidType ≠ .notEnoughStock s a)) ∧
    (0:Int) < 3 ∧
    (resultOk (create_transaction (noLotDB (some 7)) "Sale" 1 1 1
        [⟨some 1, some 3, some 8⟩] 1 none true) = true ∧
      stockQty (create_transaction (noLotDB (some 7)) "Sale" 1 1 1
        [⟨some 1, some 3, some 8⟩] 1 none true).1 1 1 = -3 ∧
      stockQty (create_transaction (noLotDB (some 7)) "Sale" 1 1 1
        [⟨some 1, some 3, some 8⟩] 1 none true).1 1 1 < 0) :=
  ⟨by decide,
   allow_negative_disables_stock_checks.1 emptyDB "Bad" 1 1 1 1 [] none
     TxnError.invalidType (by decide),
   by decide,
   allow_negative_disables_stock_checks.2 3 1 1 1 8 none (by decide)⟩

/-! ## Claim C2: aggregate pre-check -/

/-- `requested[pid] += q` in the aggregation list: effect on lookups. -/
theorem lookupReq_addRequested (l : List (Int × Int)) (p q pid : Int) :
    lookupReq (addRequested l p q) pid =
      lookupReq l pid + (if p = pid then q else 0) := by
  induction l with
  | nil =>
      unfold addRequested lookupReq
      by_cases h : p = pid
      · subst h
        simp [List.find?]
      · simp [List.find?, h]
  | cons a t ih =>
      obtain ⟨ap, aq⟩ := a
      unfold addRequested
      by_cases hap : ap = p
      · subst hap
        rw [if_pos rfl]
        unfold lookupReq
        by_cases h : ap = pid
        · subst h
          simp [List.find?]
        · simp [List.find?, h]
      · rw [if_neg hap]
        unfold lookupReq
        by_cases h : ap = pid
        · subst h
          have hpa : ¬ p = ap := fun he => hap he.symm
          simp [List.find?, hpa]
        · simp [List.find?, h]
          exact ih

/-- `addRequested` key membership. -/
theorem mem_keys_addRequested (l : List (Int × Int)) (p q pid : Int) :
    (∃ e ∈ addRequested l p q, e.1 = pid) ↔
      (∃ e ∈ l, e.1 = pid) ∨ pid = p := by
  induction l with
  | nil =>
      unfold addRequested
      constructor
      · rintro ⟨e, he, h1⟩
        have he1 := List.mem_singleton.mp he
        subst he1
        exact Or.inr h1.symm
      · rintro (⟨e, he, h1⟩ | hpp)
        · cases he
        · exact ⟨(p, q), List.mem_singleton.mpr rfl, hpp.symm⟩
  | cons a t ih =>
      obtain ⟨ap, aq⟩ := a
      unfold addRequested
      by_cases hap : ap = p
      · rw [if_pos hap]
        constructor
        · rintro ⟨e, he, h1⟩
          rcases List.mem_cons.mp he with he1 | he2
          · subst he1
            exact Or.inl ⟨(ap, aq), List.mem_cons_self _ _, h1⟩
          · exact Or.inl ⟨e, List.mem_cons_of_mem _ he2, h1⟩
        · rintro (⟨e, he, h1⟩ | hpp)
          · rcases List.mem_cons.mp he with he1 | he2
            · subst he1
              exact ⟨(ap, aq + q), List.mem_cons_self _ _, h1⟩
            · exact ⟨e, List.mem_cons_of_mem _ he2, h1⟩
          · refine ⟨(ap, aq + q), List.mem_cons_self _ _, ?_⟩
            show ap = pid
            rw [hap, ← hpp]
      · rw [if_neg hap]
        constructor
        · rintro ⟨e, he, h1⟩
          rcases List.mem_cons.mp he with he1 | he2
          · subst he1
            exact Or.inl ⟨(ap, aq), List.mem_cons_self _ _, h1⟩
          · rcases ih.mp ⟨e, he2, h1⟩ with ⟨e', he', h1'⟩ | h'
            · exact Or.inl ⟨e', List.mem_cons_of_mem _ he', h1'⟩
            · exact Or.inr h'
        · rintro (⟨e, he, h1⟩ | hpp)
          · rcases List.mem_cons.mp he with he1 | he2
            · subst he1
              exact ⟨(ap, aq), List.mem_cons_self _ _, h1⟩
            · obtain ⟨e', he', h1'⟩ := ih.mpr (Or.inl ⟨e, he2, h1⟩)
              exact ⟨e', List.mem_cons_of_mem _ he', h1'⟩
          · obtain ⟨e', he', h1'⟩ := ih.mpr (Or.inr hpp)
            exact ⟨e', List.mem_cons_of_mem _ he', h1'⟩

/-- The aggregation loop succeeds on well-formed rows and computes, per
product, the sum of requested quantities across all rows. -/
theorem aggregateRequested_ok (items : List ItemRow) :
    ∀ (acc : List (Int × Int)), (∀ r ∈ items, rowOkB r = true) →
      ∃ l, aggregateRequested items acc = .ok l ∧
        (∀ pid, lookupReq l pid = lookupReq acc pid + requestedSum items pid) ∧
        (∀ pid, (∃ e ∈ l, e.1 = pid) ↔
          (∃ e ∈ acc, e.1 = pid) ∨ ∃ r ∈ items, r.product_id = some pid) := by
  induction items with
  | nil =>
      intro acc hwf
      refine ⟨acc, rfl, fun pid => ?_, fun pid => ?_⟩
      · unfold requestedSum
        simp
      · simp
  | cons row rest ih =>
      intro acc hwf
      have hrow := hwf row (List.mem_cons_self _ _)
      unfold rowOkB at hrow
      cases hp1 : row.product_id with
      | none => rw [hp1] at hrow; exact Bool.noConfusion hrow
      | some p0 =>
      cases hp2 : row.quantity with
      | none => rw [hp1, hp2] at hrow; exact Bool.noConfusion hrow
      | some q0 =>
      rw [hp1, hp2] at hrow
      have hq0 : 0 < q0 := of_decide_eq_true hrow
      obtain ⟨l, hagg, hlook, hkeys⟩ := ih (addRequested acc p0 q0)
        (fun r hr => hwf r (List.mem_cons_of_mem _ hr))
      refine ⟨l, ?_, fun pid => ?_, fun pid => ?_⟩
      · unfold aggregateRequested
        rw [hp1, hp2]
        simp only []
        rw [if_neg (by omega)]
        exact hagg
      · have e1 := hlook pid
        rw [lookupReq_addRequested] at e1
        have e2 : requestedSum (row :: rest) pid =
            (if p0 = pid then q0 else 0) + requestedSum rest pid := by
          unfold requestedSum
          rw [List.map_cons, List.sum_cons, hp1, hp2]
          by_cases h : p0 = pid
          · subst h
            simp
          · rw [if_neg (fun hc => h (Option.some.inj hc)), if_neg h]
        rw [e2, e1]
        omega
      · rw [hkeys pid, mem_keys_addRequested]
        constructor
        · rintro ((h' | hpp) | ⟨r, hr, h1⟩)
          · exact Or.inl h'
          · refine Or.inr ⟨row, List.mem_cons_self _ _, ?_⟩
            rw [hp1, hpp]
          · exact Or.inr ⟨r, List.mem_cons_of_mem _ hr, h1⟩
        · rintro (h' | ⟨r, hr, h1⟩)
          · exact Or.inl (Or.inl h')
          · rcases List.mem_cons.mp hr with hr1 | hr2
            · subst hr1
              rw [hp1] at h1
              exact Or.inl (Or.inr (Option.some.inj h1).symm)
            · exact Or.inr ⟨r, hr2, h1⟩

/-- The first entry `find?` returns for a present key carries that key. -/
theorem lookup_mem {l : List (Int × Int)} {pid : Int}
    (hmem : ∃ e ∈ l, e.1 = pid) : (pid, lookupReq l pid) ∈ l := by
  induction l with
  | nil =>
      obtain ⟨e, he, _⟩ := hmem
      cases he
  | cons a t ih =>
      obtain ⟨ap, aq⟩ := a
      by_cases h : ap = pid
      · subst h
        unfold lookupReq
        simp [List.find?]
      · unfold lookupReq
        rw [List.find?_cons_of_neg _ (by simp [h])]
        have hmemt : ∃ e ∈ t, e.1 = pid := by
          obtain ⟨e, he, h1⟩ := hmem
          rcases List.mem_cons.mp he with he1 | he2
          · subst he1
            exact absurd h1 h
          · exact ⟨e, he2, h1⟩
        exact List.mem_cons_of_mem _ (ih hmemt)

/-- `_precheck_sale_stock` rejects whenever some product's aggregate
requested quantity across all rows exceeds the warehouse's on-hand stock,
reporting that product's label, availability and aggregate demand. -/
theorem precheck_over_demand {db : DB} {items : List ItemRow} {wid pid : Int}
    (hwf : ∀ r ∈ items, rowOkB r = true)
    (hrow : ∃ r ∈ items, r.product_id = some pid)
    (hover : stockQty db pid wid < requestedSum items pid) :
    ∃ shortages,
      precheck_sale_stock db items wid = some (.notEnough shortages) ∧
      (productLabel db pid, stockQty db pid wid, requestedSum items pid) ∈
        shortages := by
  obtain ⟨l, hagg, hlook, hkeys⟩ := aggregateRequested_ok items [] hwf
  have hpid_keys : ∃ e ∈ l, e.1 = pid := by
    rw [hkeys pid]
    exact Or.inr hrow
  have hlookpid : lookupReq l pid = requestedSum items pid := by
    have e1 := hlook pid
    unfold lookupReq at e1
    simpa [List.find?] using e1
  have hlne : ¬ l = [] := by
    rintro rfl
    obtain ⟨e, he, _⟩ := hpid_keys
    cases he
  have hentry : (productLabel db pid, stockQty db pid wid,
      requestedSum items pid) ∈
      l.filterMap (fun pq =>
        if stockQty db pq.1 wid < pq.2 then
          some (productLabel db pq.1, stockQty db pq.1 wid, pq.2)
        else none) := by
    apply List.mem_filterMap.mpr
    refine ⟨(pid, lookupReq l pid), lookup_mem hpid_keys, ?_⟩
    show (if stockQty db pid wid < lookupReq l pid then
      some (productLabel db pid, stockQty db pid wid, lookupReq l pid)
      else none) = _
    rw [hlookpid, if_pos hover]
  unfold precheck_sale_stock
  rw [hagg]
  simp only []
  rw [if_neg hlne]
  rw [if_neg (List.ne_nil_of_mem hentry)]
  exact ⟨_, rfl, hentry⟩

/-- C2: for a Sale with `allow_negative` false, the pre-check aggregates
the requested quantity per product across all line items before comparing
against the warehouse's stock, and whenever any product's aggregate demand
exceeds its on-hand quantity the entire call is rejected with a per-product
shortage report (label, available, requested) and no state change — in
particular two rows for the same product that individually fit but jointly
exceed stock are rejected. -/
theorem aggregate_oversell_rejected {db : DB} {items : List ItemRow}
    {pa wh u o : Int} {n : Option String} {pid : Int}
    (hwf : ∀ r ∈ items, rowOkB r = true)
    (hrow : ∃ r ∈ items, r.product_id = some pid)
    (hover : stockQty db pid wh < requestedSum items pid) :
    ∃ shortages,
      precheck_sale_stock db items wh = some (.notEnough shortages) ∧
      (productLabel db pid, stockQty db pid wh, requestedSum items pid) ∈
        shortages ∧
      (create_transaction db "Sale" pa wh u items o n false).2 =
        .error (.precheckFailed (.notEnough shortages)) ∧
      (create_transaction db "Sale" pa wh u items o n false).1 = db := by
  obtain ⟨sh, hp, hm⟩ := precheck_over_demand hwf hrow hover
  have h2 : (create_transaction db "Sale" pa wh u items o n false).2 =
      .error (.precheckFailed (.notEnough sh)) := by
    unfold create_transaction
    rw [if_pos (Or.inr rfl), if_pos ⟨rfl, rfl⟩, hp]
  exact ⟨sh, hp, hm, h2, create_transaction_rollback h2⟩

/-- Witness for C2: the duplicate-row oversell — two rows of 6 against 10
on hand — is rejected entirely with the aggregate shortage report. -/
theorem aggregate_oversell_rejected_witness :
    (∀ r ∈ ([⟨some 1, some 6, some 8⟩, ⟨some 1, some 6, some 8⟩] :
      List ItemRow), rowOkB r = true) ∧
    (∃ r ∈ ([⟨some 1, some 6, some 8⟩, ⟨some 1, some 6, some 8⟩] :
      List ItemRow), r.product_id = some 1) ∧
    stockQty (oneLotDB 10 5) 1 1 <
      requestedSum [⟨some 1, some 6, some 8⟩, ⟨some 1, some 6, some 8⟩] 1 ∧
    ∃ shortages,
      precheck_sale_stock (oneLotDB 10 5)
        [⟨some 1, some 6, some 8⟩, ⟨some 1, some 6, some 8⟩] 1 =
        some (.notEnough shortages) ∧
      (productLabel (oneLotDB 10 5) 1, stockQty (oneLotDB 10 5) 1 1,
        requestedSum [⟨some 1, some 6, some 8⟩, ⟨some 1, some 6, some 8⟩] 1) ∈
        shortages ∧
      (create_transaction (oneLotDB 10 5) "Sale" 1 1 1
        [⟨some 1, some 6, some 8⟩, ⟨some 1, some 6, some 8⟩] 1 none false).2 =
        .error (.precheckFailed (.notEnough shortages)) ∧
      (create_transaction (oneLotDB 10 5) "Sale" 1 1 1
        [⟨some 1, some 6, some 8⟩, ⟨some 1, some 6, some 8⟩] 1 none false).1 =
        oneLotDB 10 5 :=
  ⟨by decide, by decide, by decide,
   aggregate_oversell_rejected (by decide) (by decide) (by decide)⟩

/-! ## Claims C3 and C5: the FIFO order and the shortfall fallback -/

/-- On the two-lot state the FIFO query returns exactly the two lots,
oldest first — with the id as tiebreaker when `received_at` ties. -/
theorem twoLot_fifoLots (dp : Option Rat) (t1 t2 r1 r2 : Int) (c1 c2 : Rat)
    (h1 : 0 < r1) (h2 : 0 < r2) (ht : t1 ≤ t2) :
    fifoLots (twoLotDB dp t1 t2 r1 r2 c1 c2) 1 1 =
      [⟨1, 1, 1, r1, c1, t1, none⟩, ⟨2, 1, 1, r2, c2, t2, none⟩] := by
  unfold fifoLots twoLotDB
  rcases lt_or_eq_of_le ht with hlt | heq
  · norm_num [List.filter, h1, h2, sortLotsBy, insertLotBy, fifoOrder,
      hlt, hlt.ne]
  · subst heq
    norm_num [List.filter, h1, h2, sortLotsBy, insertLotBy, fifoOrder]

/-- C3: FIFO consumption considers only the pair's positive-remainder lots,
oldest `received_at` first with ascending id as tiebreaker (the query
conjunct); on two lots with `t1 ≤ t2` a sale of `q ≤ r1` consumes
exclusively from lot 1 leaving one allocation row, and a sale with
`r1 < q ≤ r1 + r2` fully drains lot 1 and partially consumes lot 2,
leaving exactly two allocation rows, each touched lot decremented by
`min(remaining to consume, lot remainder)`. -/
theorem fifo_consume_two_lot_order (dp : Option Rat) (t1 t2 r1 r2 q iid : Int)
    (c1 c2 : Rat) (an : Bool)
    (h1 : 0 < r1) (h2 : 0 < r2) (ht : t1 ≤ t2) (hq : 0 < q) :
    fifoLots (twoLotDB dp t1 t2 r1 r2 c1 c2) 1 1 =
      [⟨1, 1, 1, r1, c1, t1, none⟩, ⟨2, 1, 1, r2, c2, t2, none⟩] ∧
    (q ≤ r1 →
      (fifo_consume_with_allocations (twoLotDB dp t1 t2 r1 r2 c1 c2)
        iid 1 1 q an).2.lots =
        [⟨1, 1, 1, r1 - q, c1, t1, none⟩, ⟨2, 1, 1, r2, c2, t2, none⟩] ∧
      (fifo_consume_with_allocations (twoLotDB dp t1 t2 r1 r2 c1 c2)
        iid 1 1 q an).2.allocations = [⟨iid, 1, q, c1⟩] ∧
      (fifo_consume_with_allocations (twoLotDB dp t1 t2 r1 r2 c1 c2)
        iid 1 1 q an).1 = (q : Rat) * c1) ∧
    (r1 < q → q ≤ r1 + r2 →
      (fifo_consume_with_allocations (twoLotDB dp t1 t2 r1 r2 c1 c2)
        iid 1 1 q an).2.lots =
        [⟨1, 1, 1, 0, c1, t1, none⟩,
         ⟨2, 1, 1, r2 - (q - r1), c2, t2, none⟩] ∧
      (fifo_consume_with_allocations (twoLotDB dp t1 t2 r1 r2 c1 c2)
        iid 1 1 q an).2.allocations =
        [⟨iid, 1, r1, c1⟩, ⟨iid, 2, q - r1, c2⟩] ∧
      (fifo_consume_with_allocations (twoLotDB dp t1 t2 r1 r2 c1 c2)
        iid 1 1 q an).1 = (r1 : Rat) * c1 + ((q - r1 : Int) : Rat) * c2) := by
  refine ⟨twoLot_fifoLots dp t1 t2 r1 r2 c1 c2 h1 h2 ht,
    fun hqr => ?_, fun hlow hhigh => ?_⟩
  · unfold fifo_consume_with_allocations
    rw [twoLot_fifoLots dp t1 t2 r1 r2 c1 c2 h1 h2 ht]
    refine ⟨?_, ?_, ?_⟩ <;>
      norm_num [fifoLoop, min_eq_left hqr, twoLotDB,
        if_neg (show ¬ q ≤ 0 from by omega)]
  · unfold fifo_consume_with_allocations
    rw [twoLot_fifoLots dp t1 t2 r1 r2 c1 c2 h1 h2 ht]
    refine ⟨?_, ?_, ?_⟩ <;>
      norm_num [fifoLoop, min_eq_right (show r1 ≤ q from by omega),
        min_eq_left (show q - r1 ≤ r2 from by omega), twoLotDB,
        if_neg (show ¬ q ≤ 0 from by omega),
        if_neg (show ¬ q - r1 ≤ 0 from by omega),
        if_neg (show ¬ q ≤ r1 from by omega)]

/-- Witness for C3: the cross-lot case at lots of 5 and 5 with a sale of 7
(lot 1 drained, lot 2 partially consumed, two allocation rows). -/
theorem fifo_consume_two_lot_order_witness :
    (fifo_consume_with_allocations (twoLotDB (some 7) 0 1 5 5 2 3)
      1 1 1 7 false).2.lots =
      [⟨1, 1, 1, 0, 2, 0, none⟩, ⟨2, 1, 1, 5 - (7 - 5), 3, 1, none⟩] ∧
    (fifo_consume_with_allocations (twoLotDB (some 7) 0 1 5 5 2 3)
      1 1 1 7 false).2.allocations =
      [⟨1, 1, 5, 2⟩, ⟨1, 2, 7 - 5, 3⟩] ∧
    (fifo_consume_with_allocations (twoLotDB (some 7) 0 1 5 5 2 3)
      1 1 1 7 false).1 = ((5 : Int) : Rat) * 2 + ((7 - 5 : Int) : Rat) * 3 :=
  (fifo_consume_two_lot_order (some 7) 0 1 5 5 7 1 2 3 false
    (by decide) (by decide) (by decide) (by decide)).2.2
    (by decide) (by decide)

/-- C5: when FIFO lots are exhausted before the requested quantity, the
shortfall is priced at the most recently received lot's unit cost when
`allow_negative` (latest `received_at`, highest id on ties; lot 2 here for
`t1 ≤ t2`), at the product's `default_purchase_price or 0` when not, and
at 0 when the pair has no lots at all under `allow_negative`. -/
theorem fifo_shortfall_pricing (dp : Option Rat) (t1 t2 r1 r2 q iid : Int)
    (c1 c2 : Rat)
    (h1 : 0 < r1) (h2 : 0 < r2) (ht : t1 ≤ t2) (hq : r1 + r2 < q) :
    ((fifo_consume_with_allocations (twoLotDB dp t1 t2 r1 r2 c1 c2)
      iid 1 1 q true).1 =
      (r1 : Rat) * c1 + (r2 : Rat) * c2 + ((q - r1 - r2 : Int) : Rat) * c2) ∧
    ((fifo_consume_with_allocations (twoLotDB dp t1 t2 r1 r2 c1 c2)
      iid 1 1 q false).1 =
      (r1 : Rat) * c1 + (r2 : Rat) * c2 +
        ((q - r1 - r2 : Int) : Rat) * (dp.getD 0)) ∧
    ((fifo_consume_with_allocations (noLotDB dp) iid 1 1 q true).1 = 0) ∧
    ((fifo_consume_with_allocations (noLotDB dp) iid 1 1 q false).1 =
      (q : Rat) * (dp.getD 0)) := by
  refine ⟨?_, ?_, ?_, ?_⟩
  · unfold fifo_consume_with_allocations
    rw [twoLot_fifoLots dp t1 t2 r1 r2 c1 c2 h1 h2 ht]
    rcases lt_or_eq_of_le ht with hlt | heq
    · norm_num [fifoLoop, min_eq_right (show r1 ≤ q from by omega),
        min_eq_right (show r2 ≤ q - r1 from by omega), twoLotDB, last_lot,
        List.filter, sortLotsBy, insertLotBy, lifoOrder,
        if_neg (show ¬ q ≤ 0 from by omega),
        if_neg (show ¬ q - r1 ≤ 0 from by omega),
        if_neg (show ¬ q ≤ r1 from by omega),
        if_pos (show 0 < q - r1 - r2 from by omega),
        if_pos (show r2 < q - r1 from by omega),
        decide_eq_false (show ¬ t2 < t1 from by omega),
        decide_eq_false (show ¬ t1 = t2 from hlt.ne)]
    · subst heq
      norm_num [fifoLoop, min_eq_right (show r1 ≤ q from by omega),
        min_eq_right (show r2 ≤ q - r1 from by omega), twoLotDB, last_lot,
        List.filter, sortLotsBy, insertLotBy, lifoOrder,
        if_neg (show ¬ q ≤ 0 from by omega),
        if_neg (show ¬ q - r1 ≤ 0 from by omega),
        if_neg (show ¬ q ≤ r1 from by omega),
        if_pos (show 0 < q - r1 - r2 from by omega),
        if_pos (show r2 < q - r1 from by omega)]
  · unfold fifo_consume_with_allocations
    rw [twoLot_fifoLots dp t1 t2 r1 r2 c1 c2 h1 h2 ht]
    norm_num [fifoLoop, min_eq_right (show r1 ≤ q from by omega),
      min_eq_right (show r2 ≤ q - r1 from by omega), twoLotDB,
      findProduct, List.find?,
      if_neg (show ¬ q ≤ 0 from by omega),
      if_neg (show ¬ q - r1 ≤ 0 from by omega),
      if_neg (show ¬ q ≤ r1 from by omega),
      if_pos (show 0 < q - r1 - r2 from by omega),
      if_pos (show r2 < q - r1 from by omega)]
  · unfold fifo_consume_with_allocations
    norm_num [fifoLots, fifoLoop, sortLotsBy, List.filter, noLotDB, last_lot,
      if_pos (show 0 < q from by omega)]
  · unfold fifo_consume_with_allocations
    norm_num [fifoLots, fifoLoop, sortLotsBy, List.filter, noLotDB,
      findProduct, List.find?,
      if_pos (show 0 < q from by omega)]

/-- Witness for C5: the four fallback-pricing facts at lots of 2 @ 4.00 and
3 @ 5.00 with a requested quantity of 10. -/
theorem fifo_shortfall_pricing_witness :
    ((fifo_consume_with_allocations (twoLotDB (some 7) 0 1 2 3 4 5)
      1 1 1 10 true).1 =
      ((2 : Int) : Rat) * 4 + ((3 : Int) : Rat) * 5 +
        ((10 - 2 - 3 : Int) : Rat) * 5) ∧
    ((fifo_consume_with_allocations (twoLotDB (some 7) 0 1 2 3 4 5)
      1 1 1 10 false).1 =
      ((2 : Int) : Rat) * 4 + ((3 : Int) : Rat) * 5 +
        ((10 - 2 - 3 : Int) : Rat) * ((some (7 : Rat)).getD 0)) ∧
    ((fifo_consume_with_allocations (noLotDB (some 7)) 1 1 1 10 true).1 = 0) ∧
    ((fifo_consume_with_allocations (noLotDB (some 7)) 1 1 1 10 false).1 =
      ((10 : Int) : Rat) * ((some (7 : Rat)).getD 0)) :=
  fifo_shortfall_pricing (some 7) 0 1 2 3 10 1 4 5
    (by decide) (by decide) (by decide) (by decide)
